import Mathlib

/-!
Verification of the ProxLB daemon's decision engine (shallow embedding of
src/finished/proxlb_daemon_english.py).

The cluster API is modelled as a record of (deterministic, per-cycle) call
results; a fallible call is an `Except Unit` value.  Python exceptions that
influence control flow are made explicit: per-node metric failures become
`Option`, and the `sys.exit(1)` in `gather_metrics` becomes the
`PyErr.systemExit` error of the surrounding computation, which — unlike
ordinary exceptions — is not absorbed by the scheduler's `except Exception`
handler.  Numeric values (CPU fractions, memory sizes, scores) are modelled
as rationals.  Python dicts keyed by node name are modelled as association
lists in insertion order; the monitored node lists are assumed free of
duplicate names (a duplicate would be collapsed by the dict, with an
identical value since the modelled API is deterministic within a cycle).
-/

namespace ProxLB

/-- Python exception classes relevant to the daemon's control flow:
`exc` stands for any ordinary `Exception`, `systemExit` for `SystemExit`
(raised by `sys.exit`), which is *not* a subclass of `Exception`. -/
inductive PyErr where
  | exc
  | systemExit (code : Nat)
deriving DecidableEq, Repr

/-- Fields of a node status response that `gather_metrics` reads via
`data.get(key, default)`; `none` models an absent key. -/
structure NodeStatus where
  cpu : Option ℚ
  maxmem : Option ℚ
  mem : Option ℚ
deriving DecidableEq, Repr

/-- The per-node entry stored in the metrics snapshot (the `raw` field of the
source, unused by any decision, is omitted). -/
structure NodeMetrics where
  cpu_percent : ℚ
  mem_percent : ℚ
  score : ℚ
deriving DecidableEq, Repr

/-- The metrics snapshot: node name to metrics, in insertion order. -/
abbrev Metrics := List (String × NodeMetrics)

/-- An entry of a per-node `qemu.get()` listing; only `vmid` is read. -/
structure VMInfo where
  vmid : Option Nat
deriving DecidableEq, Repr

/-- An entry of the `cluster.resources.get()` listing, with the three fields
the handler reads via `.get`; `none` models an absent key. -/
structure Resource where
  vmid : Option Nat
  rtype : Option String
  node : Option String
deriving DecidableEq, Repr

/-- The configuration fields consumed by the decision engine. -/
structure Config where
  nodes : List String
  maintenance_nodes : List String
  migration_threshold : ℚ
  dry_run : Bool
deriving DecidableEq, Repr

/-- The cluster API as seen by one cycle: the result each call would return,
`Except.error ()` standing for a raised exception. -/
structure Api where
  nodesList : Except Unit (List String)
  nodeStatus : String → Except Unit NodeStatus
  nodeVMs : String → Except Unit (List VMInfo)
  nodeCTs : String → Except Unit (List VMInfo)
  clusterResources : Except Unit (List Resource)

/-- Which kind of workload a migration concerns. -/
inductive WorkloadKind where
  | vm
  | ct
deriving DecidableEq, Repr

/-- A migration request as constructed by the daemon: `online` and `force`
record whether the corresponding parameter is included in the POST body. -/
structure MigrationRequest where
  kind : WorkloadKind
  vmid : Option Nat
  source : String
  target : String
  online : Bool
  force : Bool
deriving DecidableEq, Repr

/-- Body of the `for node in nodes` loop of `gather_metrics`:
`cpu_percent = data.get('cpu', 0) * 100`, `maxmem = data.get('maxmem', 1)`,
`mem_percent = (data.get('mem', 0) / maxmem) * 100`.  When the status reports
`maxmem = 0` the division raises `ZeroDivisionError`, the surrounding
`except` absorbs it and the node is left out of the snapshot: result `none`. -/
def computeNodeMetrics (data : NodeStatus) : Option NodeMetrics :=
  let cpu_percent := data.cpu.getD 0 * 100
  let maxmem := data.maxmem.getD 1
  if maxmem = 0 then none
  else
    let mem_percent := data.mem.getD 0 / maxmem * 100
    some { cpu_percent := cpu_percent, mem_percent := mem_percent,
           score := cpu_percent + mem_percent }

/-- Modelled from the spec: the same per-node computation as the
specification words it — "guard against mem_total = 0 by treating the
denominator as 1", so the computation never faults and always produces an
entry.  Kept separate from `computeNodeMetrics` (which follows the source)
for comparison. -/
def computeNodeMetricsSpec (data : NodeStatus) : NodeMetrics :=
  let cpu_percent := data.cpu.getD 0 * 100
  let maxmem := data.maxmem.getD 1
  let denom := if maxmem = 0 then 1 else maxmem
  let mem_percent := data.mem.getD 0 / denom * 100
  { cpu_percent := cpu_percent, mem_percent := mem_percent,
    score := cpu_percent + mem_percent }

/-- `gather_metrics`: when the configured node list is empty the node list is
fetched from the API, and on failure the daemon calls `sys.exit(1)`; a
per-node status failure (or a `ZeroDivisionError` in the computation) only
drops that node from the snapshot. -/
def gather_metrics (cfg : Config) (api : Api) : Except PyErr Metrics :=
  match (if cfg.nodes.isEmpty then api.nodesList else .ok cfg.nodes) with
  | .error _ => .error (.systemExit 1)
  | .ok nodes =>
    .ok (nodes.filterMap fun node =>
      match api.nodeStatus node with
      | .error _ => none
      | .ok data => (computeNodeMetrics data).map fun m => (node, m))

/-- `choose_target_node`: `min(metrics.items(), key=score)` — the first
entry with minimal score — or `None` on an empty snapshot. -/
def choose_target_node (metrics : Metrics) : Option (String × NodeMetrics) :=
  match metrics with
  | [] => none
  | x :: xs =>
    some (xs.foldl (fun best y => if y.2.score < best.2.score then y else best) x)

/-- `get_vms`: the node's qemu listing, or `[]` when the call raises. -/
def get_vms (api : Api) (node : String) : List VMInfo :=
  match api.nodeVMs node with
  | .ok vms => vms
  | .error _ => []

/-- `get_cts`: the node's lxc listing, or `[]` when the call raises. -/
def get_cts (api : Api) (node : String) : List VMInfo :=
  match api.nodeCTs node with
  | .ok cts => cts
  | .error _ => []

/-- `migrate_vm`: returns the migration request it decides on together with
the list of requests actually POSTed to the API — empty under dry-run.  The
POST's own failure is absorbed by the local `except` and does not change
either component. -/
def migrate_vm (dry_run : Bool) (vm_id : Option Nat) (source_node target_node : String)
    (force : Bool) : MigrationRequest × List MigrationRequest :=
  let req : MigrationRequest :=
    { kind := .vm, vmid := vm_id, source := source_node, target := target_node,
      online := true, force := force }
  (req, if dry_run then [] else [req])

/-- `migrate_ct`: as `migrate_vm` but for containers, without the `online`
parameter. -/
def migrate_ct (dry_run : Bool) (ct_id : Option Nat) (source_node target_node : String)
    (force : Bool) : MigrationRequest × List MigrationRequest :=
  let req : MigrationRequest :=
    { kind := .ct, vmid := ct_id, source := source_node, target := target_node,
      online := false, force := force }
  (req, if dry_run then [] else [req])

/-- Body of the per-node loop of `run_balancing_cycle`: skip the target node;
when `score_diff >= threshold` and the node has VMs, migrate the first VM of
the listing to the target node (not forced). -/
def balance_node_action (cfg : Config) (api : Api) (target_node : String)
    (target_score : ℚ) (entry : String × NodeMetrics) :
    Option (MigrationRequest × List MigrationRequest) :=
  if entry.1 = target_node then none
  else
    let score_diff := entry.2.score - target_score
    if cfg.migration_threshold ≤ score_diff then
      match get_vms api entry.1 with
      | [] => none
      | vm_to_migrate :: _ =>
        some (migrate_vm cfg.dry_run vm_to_migrate.vmid entry.1 target_node false)
    else none

/-- `run_balancing_cycle`: gather metrics (which may `sys.exit`), return with
no migrations on an empty snapshot, otherwise pick the global target and run
the per-node loop.  The result pairs the decided migration requests with the
requests that reached the API. -/
def run_balancing_cycle (cfg : Config) (api : Api) :
    Except PyErr (List MigrationRequest × List MigrationRequest) :=
  match gather_metrics cfg api with
  | .error e => .error e
  | .ok metrics =>
    if metrics = [] then .ok ([], [])
    else
      match choose_target_node metrics with
      | none => .ok ([], [])
      | some (target_node, target_metrics) =>
        let pairs :=
          metrics.filterMap (balance_node_action cfg api target_node target_metrics.score)
        .ok (pairs.map Prod.fst, pairs.flatMap Prod.snd)

/-- Score lookup `alive_metrics[node]["score"]`, `none` when
`node in alive_metrics` is false. -/
def lookupScore (m : Metrics) (node : String) : Option ℚ :=
  (m.find? fun e => e.1 == node).map fun e => e.2.score

/-- One step of the handler's inner scan over `candidate_nodes`: keep the
accumulator when `node in alive_metrics` fails, otherwise replace it when the
node's score is strictly smaller (`None` with `best_score = inf` loses to any
present score). -/
def bc_step (alive_metrics : Metrics) (best : Option (String × ℚ))
    (node : String) : Option (String × ℚ) :=
  match lookupScore alive_metrics node with
  | none => best
  | some score =>
    match best with
    | none => some (node, score)
    | some p => if score < p.2 then some (node, score) else best

/-- The inner loop of the handler that scans `candidate_nodes` for the node
with the smallest score, starting from `target_node = None`,
`best_score = inf`: returns the chosen node paired with its score. -/
def best_candidate (alive_metrics : Metrics) (candidate_nodes : List String) :
    Option (String × ℚ) :=
  candidate_nodes.foldl (bc_step alive_metrics) none

/-- The per-resource body of `handle_maintenance_and_dead_nodes`: pick the
least-loaded candidate; the Python guard `if not target_node` skips the
resource when no node was picked and also when the picked name is the empty
string (falsy); otherwise issue a forced migration of the resource, the POST
being skipped under dry-run. -/
def failover_action (cfg : Config) (alive_metrics : Metrics)
    (candidate_nodes : List String) (resource : Resource) :
    Option (MigrationRequest × List MigrationRequest) :=
  match best_candidate alive_metrics candidate_nodes with
  | none => none
  | some picked =>
    if picked.1 = "" then none
    else if resource.rtype = some "qemu" then
      let req : MigrationRequest :=
        { kind := .vm, vmid := resource.vmid, source := resource.node.getD "",
          target := picked.1, online := false, force := true }
      some (req, if cfg.dry_run then [] else [req])
    else if resource.rtype = some "lxc" then
      let req : MigrationRequest :=
        { kind := .ct, vmid := resource.vmid, source := resource.node.getD "",
          target := picked.1, online := false, force := true }
      some (req, if cfg.dry_run then [] else [req])
    else none

/-- `alive_nodes = list(alive_metrics.keys())`. -/
def alive_of (alive_metrics : Metrics) : List String :=
  alive_metrics.map Prod.fst

/-- `dead_nodes = [node for node in all_nodes if node not in alive_nodes]`. -/
def dead_of (all_nodes : List String) (alive_metrics : Metrics) : List String :=
  all_nodes.filter fun node => decide (node ∉ alive_of alive_metrics)

/-- `nodes_to_process = set(maintenance_nodes) | set(dead_nodes)`, modelled as
the concatenation, which has the same membership. -/
def nodes_to_process_of (cfg : Config) (all_nodes : List String)
    (alive_metrics : Metrics) : List String :=
  cfg.maintenance_nodes ++ dead_of all_nodes alive_metrics

/-- `resources = self.proxmox.cluster.resources.get()`, `[]` when it raises. -/
def cluster_resources_or_empty (api : Api) : List Resource :=
  match api.clusterResources with
  | .ok rs => rs
  | .error _ => []

/-- The filter selecting resources whose host is a maintenance or dead node
and whose type is `qemu` or `lxc`. -/
def resources_to_migrate_of (api : Api) (nodes_to_process : List String) :
    List Resource :=
  (cluster_resources_or_empty api).filter fun r =>
    (match r.node with
     | some n => decide (n ∈ nodes_to_process)
     | none => false)
    && (match r.rtype with
        | some t => decide (t ∈ ["qemu", "lxc"])
        | none => false)

/-- `candidate_nodes = [node for node in alive_nodes if node not in
maintenance_nodes]`. -/
def candidate_nodes_of (cfg : Config) (alive_metrics : Metrics) : List String :=
  (alive_of alive_metrics).filter fun node => decide (node ∉ cfg.maintenance_nodes)

/-- `handle_maintenance_and_dead_nodes` after its first statement, with the
fetched cluster node list passed in (the source assigns `all_nodes = []` when
that fetch raises).  Dead nodes are the cluster nodes absent from the live
snapshot; maintenance and dead nodes' VM/CT resources are each force-migrated
to the least-loaded candidate node, candidates being live nodes not in
maintenance. -/
def handle_with_all_nodes (cfg : Config) (api : Api) (all_nodes : List String) :
    Except PyErr (List MigrationRequest × List MigrationRequest) :=
  match gather_metrics cfg api with
  | .error e => .error e
  | .ok alive_metrics =>
    let nodes_to_process := nodes_to_process_of cfg all_nodes alive_metrics
    if nodes_to_process = [] then .ok ([], [])
    else
      let resources_to_migrate := resources_to_migrate_of api nodes_to_process
      if resources_to_migrate = [] then .ok ([], [])
      else
        let candidate_nodes := candidate_nodes_of cfg alive_metrics
        if candidate_nodes = [] then .ok ([], [])
        else
          let pairs :=
            resources_to_migrate.filterMap
              (failover_action cfg alive_metrics candidate_nodes)
          .ok (pairs.map Prod.fst, pairs.flatMap Prod.snd)

/-- `handle_maintenance_and_dead_nodes`: the cluster node-list fetch is
attempted first; its failure is absorbed with `all_nodes = []`. -/
def handle_maintenance_and_dead_nodes (cfg : Config) (api : Api) :
    Except PyErr (List MigrationRequest × List MigrationRequest) :=
  handle_with_all_nodes cfg api
    (match api.nodesList with
     | .ok ns => ns
     | .error _ => [])

/-- Outputs of one full cycle: the two phases' decided requests and the
requests that reached the API. -/
structure CycleOutput where
  maintenance_requests : List MigrationRequest
  maintenance_calls : List MigrationRequest
  balancing_requests : List MigrationRequest
  balancing_calls : List MigrationRequest
deriving DecidableEq, Repr

/-- One cycle as sequenced inside `run_daemon`'s `try`: maintenance/dead-node
handling strictly before balancing; an escaping error aborts the rest of the
cycle. -/
def run_cycle (cfg : Config) (api : Api) : Except PyErr CycleOutput :=
  match handle_maintenance_and_dead_nodes cfg api with
  | .error e => .error e
  | .ok m =>
    match run_balancing_cycle cfg api with
    | .error e => .error e
    | .ok b =>
      .ok { maintenance_requests := m.1, maintenance_calls := m.2,
            balancing_requests := b.1, balancing_calls := b.2 }

/-- One iteration of `run_daemon`'s loop body: `except Exception` absorbs an
ordinary exception (the cycle's outputs are lost, result `none`, and the loop
proceeds to sleep), while a `SystemExit` escapes the handler and terminates
the process with its exit code. -/
def daemon_step (cfg : Config) (api : Api) : Except Nat (Option CycleOutput) :=
  match run_cycle cfg api with
  | .ok out => .ok (some out)
  | .error .exc => .ok none
  | .error (.systemExit code) => .error code

/-- The daemon run over a finite prefix of cycles, each cycle seeing the API
results listed for it: the loop keeps going (sleeping between cycles) until a
`SystemExit` escapes, in which case the process terminates with that code. -/
def run_daemon_cycles (cfg : Config) : List Api → Except Nat (List (Option CycleOutput))
  | [] => .ok []
  | api :: rest =>
    match daemon_step cfg api with
    | .error code => .error code
    | .ok out =>
      match run_daemon_cycles cfg rest with
      | .error code => .error code
      | .ok outs => .ok (out :: outs)

/-! ### General list helpers -/

theorem flatMap_eq_nil_of_forall {α β : Type} {g : α → List β} :
    ∀ {l : List α}, (∀ x ∈ l, g x = []) → l.flatMap g = [] := by
  intro l
  induction l with
  | nil => intro _; rfl
  | cons y t ih =>
    intro h
    have hy : g y = [] := h y (List.mem_cons_self y t)
    have ht : t.flatMap g = [] := ih fun x hx => h x (List.mem_cons_of_mem y hx)
    simp [List.flatMap_cons, hy, ht]

theorem flatMap_singleton_eq_map {α β : Type} (g : α → β) :
    ∀ l : List α, (l.flatMap fun x => [g x]) = l.map g := by
  intro l
  induction l with
  | nil => rfl
  | cons y t ih => simp [List.flatMap_cons, ih]

theorem filterMap_ext {α β : Type} {f g : α → Option β} :
    ∀ {l : List α}, (∀ x ∈ l, f x = g x) → l.filterMap f = l.filterMap g := by
  intro l
  induction l with
  | nil => intro _; rfl
  | cons y t ih =>
    intro h
    have hy : f y = g y := h y (List.mem_cons_self y t)
    have ht : t.filterMap f = t.filterMap g :=
      ih fun x hx => h x (List.mem_cons_of_mem y hx)
    simp [List.filterMap_cons, hy, ht]

theorem filterMap_eq_map_of {α β : Type} {f : α → Option β} {g : α → β} :
    ∀ {l : List α}, (∀ x ∈ l, f x = some (g x)) → l.filterMap f = l.map g := by
  intro l
  induction l with
  | nil => intro _; rfl
  | cons y t ih =>
    intro h
    have hy : f y = some (g y) := h y (List.mem_cons_self y t)
    have ht : t.filterMap f = t.map g :=
      ih fun x hx => h x (List.mem_cons_of_mem y hx)
    simp [List.filterMap_cons, hy, ht]

/-! ### Properties of `choose_target_node` -/

theorem foldl_min_mem :
    ∀ (xs : List (String × NodeMetrics)) (x : String × NodeMetrics),
      xs.foldl (fun best y => if y.2.score < best.2.score then y else best) x ∈ x :: xs := by
  intro xs
  induction xs with
  | nil => intro x; simp
  | cons y ys ih =>
    intro x
    simp only [List.foldl_cons]
    have h := ih (if y.2.score < x.2.score then y else x)
    rcases List.mem_cons.mp h with h1 | h1
    · rw [h1]
      by_cases hc : y.2.score < x.2.score <;> simp [hc]
    · exact List.mem_cons.mpr (Or.inr (List.mem_cons.mpr (Or.inr h1)))

theorem foldl_min_le :
    ∀ (xs : List (String × NodeMetrics)) (x : String × NodeMetrics),
      (xs.foldl (fun best y => if y.2.score < best.2.score then y else best) x).2.score
        ≤ x.2.score ∧
      ∀ y ∈ xs,
        (xs.foldl (fun best y => if y.2.score < best.2.score then y else best) x).2.score
          ≤ y.2.score := by
  intro xs
  induction xs with
  | nil => intro x; exact ⟨le_refl _, by simp⟩
  | cons y ys ih =>
    intro x
    simp only [List.foldl_cons]
    obtain ⟨h1, h2⟩ := ih (if y.2.score < x.2.score then y else x)
    have hx : (if y.2.score < x.2.score then y else x).2.score ≤ x.2.score := by
      by_cases hc : y.2.score < x.2.score
      · simp [hc]; exact le_of_lt hc
      · simp [hc]
    have hy : (if y.2.score < x.2.score then y else x).2.score ≤ y.2.score := by
      by_cases hc : y.2.score < x.2.score
      · simp [hc]
      · simp [hc]; exact le_of_not_lt hc
    refine ⟨le_trans h1 hx, ?_⟩
    intro z hz
    rcases List.mem_cons.mp hz with rfl | hz'
    · exact le_trans h1 hy
    · exact h2 z hz'

theorem choose_target_node_eq_none {ms : Metrics} :
    choose_target_node ms = none ↔ ms = [] := by
  cases ms <;> simp [choose_target_node]

theorem choose_target_node_mem {ms : Metrics} {p : String × NodeMetrics}
    (h : choose_target_node ms = some p) : p ∈ ms := by
  cases ms with
  | nil => simp [choose_target_node] at h
  | cons x xs =>
    simp only [choose_target_node, Option.some.injEq] at h
    rw [← h]
    exact foldl_min_mem xs x

theorem choose_target_node_min {ms : Metrics} {p : String × NodeMetrics}
    (h : choose_target_node ms = some p) : ∀ q ∈ ms, p.2.score ≤ q.2.score := by
  cases ms with
  | nil => simp [choose_target_node] at h
  | cons x xs =>
    simp only [choose_target_node, Option.some.injEq] at h
    rw [← h]
    intro q hq
    obtain ⟨h1, h2⟩ := foldl_min_le xs x
    rcases List.mem_cons.mp hq with rfl | hq'
    · exact h1
    · exact h2 q hq'

theorem choose_target_node_isSome {ms : Metrics} (h : ms ≠ []) :
    ∃ p, choose_target_node ms = some p := by
  cases ms with
  | nil => exact absurd rfl h
  | cons x xs => exact ⟨_, rfl⟩

/-- C6: `choose_target_node` applied to a non-empty snapshot returns an entry
of the snapshot whose score is minimal over all snapshot entries (under ties,
some minimal entry), and applied to an empty snapshot returns `none`. -/
theorem choose_target_node_spec (ms : Metrics) :
    (choose_target_node ms = none ↔ ms = []) ∧
    ∀ n m, choose_target_node ms = some (n, m) →
      (n, m) ∈ ms ∧ ∀ p ∈ ms, m.score ≤ p.2.score := by
  refine ⟨choose_target_node_eq_none, ?_⟩
  intro n m h
  exact ⟨choose_target_node_mem h, choose_target_node_min h⟩

/-- Concrete snapshot used by the C6 witness. -/
def msW6 : Metrics :=
  [("a", { cpu_percent := 3, mem_percent := 4, score := 7 }),
   ("b", { cpu_percent := 1, mem_percent := 2, score := 3 }),
   ("c", { cpu_percent := 2, mem_percent := 1, score := 3 })]

/-- Witness for C6: on a concrete three-node snapshot with a tie for the
minimum, the chosen entry belongs to the snapshot and its score is minimal,
and the empty snapshot yields `none`. -/
theorem choose_target_node_spec_witness :
    (("b", { cpu_percent := 1, mem_percent := 2, score := 3 : NodeMetrics }) ∈ msW6) ∧
    (∀ p ∈ msW6, (3 : ℚ) ≤ p.2.score) ∧
    choose_target_node [] = none := by
  have h := (choose_target_node_spec msW6).2 "b"
    { cpu_percent := 1, mem_percent := 2, score := 3 } (by decide)
  exact ⟨h.1, fun p hp => h.2 p hp, (choose_target_node_spec []).1.mpr rfl⟩

/-! ### Error propagation through a cycle -/

theorem gather_metrics_eq_error {cfg : Config} {api : Api} {e : PyErr} :
    gather_metrics cfg api = .error e ↔
      cfg.nodes = [] ∧ api.nodesList = .error () ∧ e = .systemExit 1 := by
  unfold gather_metrics
  cases hn : cfg.nodes with
  | nil =>
    cases hl : api.nodesList with
    | ok ns => simp [hl]
    | error u => cases u; simp [hl, eq_comm]
  | cons a t => simp

theorem gather_metrics_ok_of {cfg : Config} {api : Api}
    (h : cfg.nodes = [] → api.nodesList ≠ .error ()) :
    ∃ m, gather_metrics cfg api = .ok m := by
  cases hg : gather_metrics cfg api with
  | ok m => exact ⟨m, rfl⟩
  | error e =>
    obtain ⟨h1, h2, _⟩ := gather_metrics_eq_error.mp hg
    exact absurd h2 (h h1)

theorem run_balancing_cycle_error_of {cfg : Config} {api : Api} {e : PyErr}
    (hg : gather_metrics cfg api = .error e) :
    run_balancing_cycle cfg api = .error e := by
  unfold run_balancing_cycle
  rw [hg]

theorem run_balancing_cycle_error_elim {cfg : Config} {api : Api} {e : PyErr}
    (h : run_balancing_cycle cfg api = .error e) :
    gather_metrics cfg api = .error e := by
  unfold run_balancing_cycle at h
  cases hg : gather_metrics cfg api with
  | error e' => rw [hg] at h; injection h with h; rw [h]
  | ok m =>
    rw [hg] at h
    simp only [] at h
    split at h
    · exact Except.noConfusion h
    · split at h
      · exact Except.noConfusion h
      · exact Except.noConfusion h

theorem handle_with_all_nodes_error_of {cfg : Config} {api : Api}
    {all_nodes : List String} {e : PyErr}
    (hg : gather_metrics cfg api = .error e) :
    handle_with_all_nodes cfg api all_nodes = .error e := by
  unfold handle_with_all_nodes
  rw [hg]

theorem handle_with_all_nodes_error_elim {cfg : Config} {api : Api}
    {all_nodes : List String} {e : PyErr}
    (h : handle_with_all_nodes cfg api all_nodes = .error e) :
    gather_metrics cfg api = .error e := by
  unfold handle_with_all_nodes at h
  cases hg : gather_metrics cfg api with
  | error e' => rw [hg] at h; injection h with h; rw [h]
  | ok m =>
    rw [hg] at h
    simp only [] at h
    split at h
    · exact Except.noConfusion h
    · split at h
      · exact Except.noConfusion h
      · split at h
        · exact Except.noConfusion h
        · exact Except.noConfusion h

theorem handle_maintenance_error_of {cfg : Config} {api : Api} {e : PyErr}
    (hg : gather_metrics cfg api = .error e) :
    handle_maintenance_and_dead_nodes cfg api = .error e :=
  handle_with_all_nodes_error_of hg

theorem handle_with_all_nodes_ok {cfg : Config} {api : Api}
    {all_nodes : List String} {m : Metrics}
    (hg : gather_metrics cfg api = .ok m) :
    ∃ r, handle_with_all_nodes cfg api all_nodes = .ok r := by
  unfold handle_with_all_nodes
  rw [hg]
  simp only []
  split
  · exact ⟨_, rfl⟩
  · split
    · exact ⟨_, rfl⟩
    · split
      · exact ⟨_, rfl⟩
      · exact ⟨_, rfl⟩

theorem run_balancing_cycle_ok {cfg : Config} {api : Api} {m : Metrics}
    (hg : gather_metrics cfg api = .ok m) :
    ∃ r, run_balancing_cycle cfg api = .ok r := by
  unfold run_balancing_cycle
  rw [hg]
  simp only []
  split
  · exact ⟨_, rfl⟩
  · split
    · exact ⟨_, rfl⟩
    · exact ⟨_, rfl⟩

theorem run_cycle_error_of {cfg : Config} {api : Api} {e : PyErr}
    (hg : gather_metrics cfg api = .error e) :
    run_cycle cfg api = .error e := by
  unfold run_cycle
  rw [handle_maintenance_error_of hg]

theorem run_cycle_error_elim {cfg : Config} {api : Api} {e : PyErr}
    (h : run_cycle cfg api = .error e) :
    gather_metrics cfg api = .error e := by
  unfold run_cycle at h
  cases hh : handle_maintenance_and_dead_nodes cfg api with
  | error e' =>
    rw [hh] at h; injection h with h; rw [← h]
    exact handle_with_all_nodes_error_elim hh
  | ok mo =>
    rw [hh] at h
    simp only [] at h
    cases hb : run_balancing_cycle cfg api with
    | error e' =>
      rw [hb] at h; injection h with h; rw [← h]
      exact run_balancing_cycle_error_elim hb
    | ok bo => rw [hb] at h; exact Except.noConfusion h

theorem run_cycle_ok {cfg : Config} {api : Api} {m : Metrics}
    (hg : gather_metrics cfg api = .ok m) :
    ∃ out, run_cycle cfg api = .ok out := by
  obtain ⟨r, hr⟩ := @handle_with_all_nodes_ok cfg api
    (match api.nodesList with | .ok ns => ns | .error _ => []) m hg
  obtain ⟨b, hb⟩ := run_balancing_cycle_ok hg
  unfold run_cycle handle_maintenance_and_dead_nodes
  rw [hr, hb]
  exact ⟨_, rfl⟩

theorem daemon_step_ok_of {cfg : Config} {api : Api}
    (h : cfg.nodes = [] → api.nodesList ≠ .error ()) :
    ∃ out, daemon_step cfg api = .ok out := by
  obtain ⟨m, hm⟩ := gather_metrics_ok_of h
  obtain ⟨out, hout⟩ := run_cycle_ok hm
  unfold daemon_step
  rw [hout]
  exact ⟨_, rfl⟩

/-! ### C2: node-list fetch failure with an empty monitored list -/

/-- C2 (amended): when the configured monitored node list is empty and the
cluster node-list fetch fails, `gather_metrics` does not return an empty
snapshot — it raises `SystemExit(1)` (`sys.exit(1)`), which the scheduler's
`except Exception` does not catch: both phases abort, the scheduler does not
sleep into a next cycle, and the process exits with status 1. -/
theorem nodelist_failure_raises_system_exit (cfg : Config) (api : Api)
    (hn : cfg.nodes = []) (he : api.nodesList = .error ()) :
    gather_metrics cfg api = .error (.systemExit 1) ∧
    run_balancing_cycle cfg api = .error (.systemExit 1) ∧
    handle_maintenance_and_dead_nodes cfg api = .error (.systemExit 1) ∧
    daemon_step cfg api = .error 1 ∧
    ∀ rest, run_daemon_cycles cfg (api :: rest) = .error 1 := by
  have hg : gather_metrics cfg api = .error (.systemExit 1) :=
    gather_metrics_eq_error.mpr ⟨hn, he, rfl⟩
  have hd : daemon_step cfg api = .error 1 := by
    unfold daemon_step
    rw [run_cycle_error_of hg]
  refine ⟨hg, run_balancing_cycle_error_of hg, handle_maintenance_error_of hg, hd, ?_⟩
  intro rest
  unfold run_daemon_cycles
  rw [hd]

/-- Concrete input refuting C2 as stated. -/
def cfgX2 : Config :=
  { nodes := [], maintenance_nodes := [], migration_threshold := 20, dry_run := false }

/-- Concrete API results refuting C2 as stated: the node-list fetch raises. -/
def apiX2 : Api :=
  { nodesList := .error (), nodeStatus := fun _ => .error (),
    nodeVMs := fun _ => .error (), nodeCTs := fun _ => .error (),
    clusterResources := .error () }

/-- C2 (counterexample): with an empty monitored list and a failing node-list
fetch, metrics collection raises `SystemExit(1)` instead of returning an
empty snapshot, and the daemon iteration terminates the process (exit code 1)
instead of sleeping into the next cycle. -/
theorem nodelist_failure_exits_process :
    gather_metrics cfgX2 apiX2 = .error (.systemExit 1) ∧
    run_balancing_cycle cfgX2 apiX2 = .error (.systemExit 1) ∧
    daemon_step cfgX2 apiX2 = .error 1 := ⟨rfl, rfl, rfl⟩

/-- Concrete configuration for the C2 witness. -/
def cfgW2 : Config :=
  { nodes := [], maintenance_nodes := ["q"], migration_threshold := 5, dry_run := true }

/-- Concrete API results for the C2 witness. -/
def apiW2 : Api :=
  { nodesList := .error (), nodeStatus := fun _ => .ok { cpu := some 0, maxmem := some 1, mem := some 0 },
    nodeVMs := fun _ => .ok [], nodeCTs := fun _ => .ok [],
    clusterResources := .ok [] }

/-- Witness for the amended C2 at a concrete input. -/
theorem nodelist_failure_raises_system_exit_witness :
    gather_metrics cfgW2 apiW2 = .error (.systemExit 1) ∧
    daemon_step cfgW2 apiW2 = .error 1 ∧
    run_daemon_cycles cfgW2 [apiW2] = .error 1 := by
  obtain ⟨h1, _, _, h4, h5⟩ := nodelist_failure_raises_system_exit cfgW2 apiW2 rfl rfl
  exact ⟨h1, h4, h5 []⟩

/-! ### C3: the scheduler's catch-all -/

/-- C3 (amended): every ordinary `Exception` escaping a cycle is absorbed by
the scheduler (`daemon_step` yields `.ok`), and the loop runs on, one result
per cycle, for any sequence of cycles none of which triggers the one uncaught
error; that uncaught error — `SystemExit(1)` from the metrics collector when
the monitored list is empty and the node-list fetch fails — terminates the
process, so the claim's "for every error" does not hold. -/
theorem scheduler_absorbs_exceptions_not_system_exit (cfg : Config) (api : Api) :
    (∀ code, daemon_step cfg api = .error code →
       cfg.nodes = [] ∧ api.nodesList = .error () ∧ code = 1) ∧
    ((cfg.nodes = [] → api.nodesList ≠ .error ()) →
       ∃ out, daemon_step cfg api = .ok out) ∧
    (∀ apis : List Api, (∀ a ∈ apis, cfg.nodes = [] → a.nodesList ≠ .error ()) →
       ∃ outs, run_daemon_cycles cfg apis = .ok outs ∧ outs.length = apis.length) := by
  refine ⟨?_, daemon_step_ok_of, ?_⟩
  · intro code h
    unfold daemon_step at h
    cases hrc : run_cycle cfg api with
    | ok out => rw [hrc] at h; exact Except.noConfusion h
    | error e =>
      rw [hrc] at h
      cases e with
      | exc => exact Except.noConfusion h
      | systemExit c =>
        injection h with h
        obtain ⟨h1, h2, h3⟩ := gather_metrics_eq_error.mp (run_cycle_error_elim hrc)
        have hc : c = 1 := by injection h3
        exact ⟨h1, h2, by rw [← h, hc]⟩
  · intro apis
    induction apis with
    | nil => intro _; exact ⟨[], rfl, rfl⟩
    | cons a t ih =>
      intro h
      obtain ⟨out, hout⟩ := daemon_step_ok_of (h a (List.mem_cons_self a t))
      obtain ⟨outs, houts, hlen⟩ := ih fun x hx => h x (List.mem_cons_of_mem a hx)
      refine ⟨out :: outs, ?_, by simp [hlen]⟩
      unfold run_daemon_cycles
      rw [hout, houts]

/-- Concrete configuration refuting C3 as stated. -/
def cfgX3 : Config :=
  { nodes := [], maintenance_nodes := ["x"], migration_threshold := 5, dry_run := true }

/-- Concrete API results refuting C3 as stated. -/
def apiX3 : Api :=
  { nodesList := .error (),
    nodeStatus := fun _ => .ok { cpu := some 0, maxmem := some 1, mem := some 0 },
    nodeVMs := fun _ => .ok [], nodeCTs := fun _ => .ok [],
    clusterResources := .ok [] }

/-- C3 (counterexample): an error raised within a cycle — the `SystemExit`
from the metrics collector's node-list failure — is not caught by the
scheduler loop: the step terminates with exit code 1 and no further cycle
runs, refuting "for every error ... does not terminate the process". -/
theorem cycle_error_terminates_daemon :
    run_cycle cfgX3 apiX3 = .error (.systemExit 1) ∧
    daemon_step cfgX3 apiX3 = .error 1 ∧
    run_daemon_cycles cfgX3 [apiX3, apiX3] = .error 1 := ⟨rfl, rfl, rfl⟩

/-- Concrete API results for the C3 witness: one healthy node, everything
else failing with ordinary errors that the cycle absorbs internally. -/
def apiW3 : Api :=
  { nodesList := .ok ["n1"],
    nodeStatus := fun _ => .ok { cpu := some 0, maxmem := some 4, mem := some 1 },
    nodeVMs := fun _ => .error (), nodeCTs := fun _ => .error (),
    clusterResources := .error () }

/-- Witness for the amended C3 at a concrete input: three cycles all
complete and the loop reaches each next cycle. -/
theorem scheduler_absorbs_exceptions_not_system_exit_witness :
    (∃ out, daemon_step cfgX2 apiW3 = .ok out) ∧
    (∃ outs, run_daemon_cycles cfgX2 [apiW3, apiW3, apiW3] = .ok outs ∧
      outs.length = 3) := by
  obtain ⟨-, h2, h3⟩ := scheduler_absorbs_exceptions_not_system_exit cfgX2 apiW3
  refine ⟨h2 ?_, h3 [apiW3, apiW3, apiW3] ?_⟩
  · intro _ hcontra
    have hx : Except.ok ["n1"] = (Except.error () : Except Unit (List String)) := hcontra
    exact Except.noConfusion hx
  · intro a ha _ hcontra
    have haW : a = apiW3 := by
      rcases List.mem_cons.mp ha with h | h
      · exact h
      · rcases List.mem_cons.mp h with h' | h'
        · exact h'
        · rcases List.mem_cons.mp h' with h'' | h''
          · exact h''
          · exact absurd h'' (List.not_mem_nil a)
    rw [haW] at hcontra
    have hx : Except.ok ["n1"] = (Except.error () : Except Unit (List String)) := hcontra
    exact Except.noConfusion hx

/-! ### C7: the per-node metric formulas -/

/-- C7 (amended): for a successfully fetched status, `cpu_percent` is the CPU
fraction times 100, `mem_percent` is `mem / maxmem * 100`, and the score is
their sum; the denominator is taken as 1 only when the `maxmem` field is
*absent* from the status. When the status reports `maxmem = 0`, the division
faults, the error is absorbed, and the node is omitted from the snapshot
(rather than kept with denominator 1 as the claim states). -/
theorem metrics_formula (st : NodeStatus) :
    (st.maxmem = none →
       computeNodeMetrics st = some
         { cpu_percent := st.cpu.getD 0 * 100,
           mem_percent := st.mem.getD 0 / 1 * 100,
           score := st.cpu.getD 0 * 100 + st.mem.getD 0 / 1 * 100 }) ∧
    (∀ q : ℚ, st.maxmem = some q → q ≠ 0 →
       computeNodeMetrics st = some
         { cpu_percent := st.cpu.getD 0 * 100,
           mem_percent := st.mem.getD 0 / q * 100,
           score := st.cpu.getD 0 * 100 + st.mem.getD 0 / q * 100 }) ∧
    (st.maxmem = some 0 → computeNodeMetrics st = none) ∧
    (st.maxmem = some 0 → ∀ (cfg : Config) (api : Api) (node : String),
       api.nodeStatus node = .ok st →
       ∀ metrics, gather_metrics cfg api = .ok metrics →
         node ∉ metrics.map Prod.fst) := by
  refine ⟨?_, ?_, ?_, ?_⟩
  · intro h
    simp [computeNodeMetrics, h]
  · intro q h hq
    simp [computeNodeMetrics, h, hq]
  · intro h
    simp [computeNodeMetrics, h]
  · intro h cfg api node hst metrics hgm hmem
    have hnone : computeNodeMetrics st = none := by simp [computeNodeMetrics, h]
    unfold gather_metrics at hgm
    cases hs : (if cfg.nodes.isEmpty then api.nodesList else Except.ok cfg.nodes) with
    | error u => rw [hs] at hgm; exact Except.noConfusion hgm
    | ok ns =>
      rw [hs] at hgm
      injection hgm with hgm
      rw [← hgm] at hmem
      obtain ⟨entry, hentry, hfst⟩ := List.mem_map.mp hmem
      obtain ⟨n', hn', hf⟩ := List.mem_filterMap.mp hentry
      cases hstn : api.nodeStatus n' with
      | error u =>
        rw [hstn] at hf
        have hf' : (none : Option (String × NodeMetrics)) = some entry := hf
        exact Option.noConfusion hf'
      | ok data =>
        rw [hstn] at hf
        have hf' : Option.map (fun m => (n', m)) (computeNodeMetrics data) = some entry := hf
        obtain ⟨m, hm, hentryEq⟩ := Option.map_eq_some'.mp hf'
        have hn'node : n' = node := by rw [← hentryEq] at hfst; exact hfst
        rw [hn'node, hst] at hstn
        injection hstn with hdata
        rw [hdata] at hnone
        rw [hnone] at hm
        exact Option.noConfusion hm

/-- Concrete node status refuting C7 as stated: `maxmem` present and 0. -/
def stX7 : NodeStatus := { cpu := some 0, maxmem := some 0, mem := some 5 }

/-- Concrete configuration for the C7 counterexample. -/
def cfgX7 : Config :=
  { nodes := ["n1"], maintenance_nodes := [], migration_threshold := 20, dry_run := false }

/-- Concrete API results for the C7 counterexample. -/
def apiX7 : Api :=
  { nodesList := .ok ["n1"], nodeStatus := fun _ => .ok stX7,
    nodeVMs := fun _ => .ok [], nodeCTs := fun _ => .ok [],
    clusterResources := .ok [] }

/-- C7 (counterexample): a status reporting `mem_total = 0` does not get the
denominator treated as 1 — the computation faults and the node is dropped
from the snapshot, while the claim's formula (`computeNodeMetricsSpec`) would
keep it with score 500. -/
theorem zero_maxmem_drops_node :
    computeNodeMetrics stX7 = none ∧
    computeNodeMetricsSpec stX7 =
      { cpu_percent := 0, mem_percent := 500, score := 500 } ∧
    gather_metrics cfgX7 apiX7 = .ok [] := by
  refine ⟨rfl, ?_, rfl⟩
  simp only [computeNodeMetricsSpec, stX7, Option.getD_some]
  norm_num

/-- Witness for the amended C7 at concrete statuses: absent `maxmem` gives
denominator 1, a present non-zero `maxmem` divides normally, a present zero
`maxmem` drops the node, and the node with the faulting status is absent
from the concrete snapshot. -/
theorem metrics_formula_witness :
    computeNodeMetrics { cpu := some (1/2), maxmem := none, mem := some 3 } =
      some { cpu_percent := 1/2 * 100, mem_percent := 3 / 1 * 100,
             score := 1/2 * 100 + 3 / 1 * 100 } ∧
    computeNodeMetrics { cpu := some (1/4), maxmem := some 200, mem := some 50 } =
      some { cpu_percent := 1/4 * 100, mem_percent := 50 / 200 * 100,
             score := 1/4 * 100 + 50 / 200 * 100 } ∧
    computeNodeMetrics stX7 = none ∧
    "n1" ∉ ([] : Metrics).map Prod.fst := by
  refine ⟨(metrics_formula _).1 rfl, (metrics_formula _).2.1 200 rfl (by norm_num),
    (metrics_formula _).2.2.1 rfl,
    (metrics_formula stX7).2.2.2 rfl cfgX7 apiX7 "n1" rfl [] rfl⟩

/-! ### Properties of the handler's candidate scan -/

theorem bc_step_cases (m : Metrics) (acc : Option (String × ℚ)) (x : String) :
    bc_step m acc x = acc ∨ ∃ s, lookupScore m x = some s ∧ bc_step m acc x = some (x, s) := by
  cases hl : lookupScore m x with
  | none => exact Or.inl (by simp only [bc_step, hl])
  | some s =>
    cases acc with
    | none => exact Or.inr ⟨s, rfl, by simp only [bc_step, hl]⟩
    | some p =>
      by_cases hc : s < p.2
      · exact Or.inr ⟨s, rfl, by simp only [bc_step, hl, if_pos hc]⟩
      · exact Or.inl (by simp only [bc_step, hl, if_neg hc])

theorem bc_foldl_mem {m : Metrics} :
    ∀ (l : List String) (acc : Option (String × ℚ)) (p : String × ℚ),
      l.foldl (bc_step m) acc = some p → acc = some p ∨ p.1 ∈ l := by
  intro l
  induction l with
  | nil => intro acc p h; exact Or.inl h
  | cons x xs ih =>
    intro acc p h
    simp only [List.foldl_cons] at h
    rcases ih (bc_step m acc x) p h with h1 | h1
    · rcases bc_step_cases m acc x with h2 | ⟨s, _, h2⟩
      · exact Or.inl (h2 ▸ h1)
      · rw [h2] at h1
        injection h1 with h1
        exact Or.inr (by rw [← h1]; exact List.mem_cons_self x xs)
    · exact Or.inr (List.mem_cons_of_mem x h1)

theorem best_candidate_mem {m : Metrics} {l : List String} {p : String × ℚ}
    (h : best_candidate m l = some p) : p.1 ∈ l := by
  rcases bc_foldl_mem l none p h with h1 | h1
  · exact Option.noConfusion h1
  · exact h1

/-! ### Inversion of the per-node and per-resource actions -/

theorem balance_node_action_some {cfg : Config} {api : Api} {tn : String} {ts : ℚ}
    {x : String × NodeMetrics} {pair : MigrationRequest × List MigrationRequest}
    (h : balance_node_action cfg api tn ts x = some pair) :
    ∃ v vs, get_vms api x.1 = v :: vs ∧ x.1 ≠ tn ∧
      cfg.migration_threshold ≤ x.2.score - ts ∧
      pair = migrate_vm cfg.dry_run v.vmid x.1 tn false := by
  simp only [balance_node_action] at h
  by_cases h1 : x.1 = tn
  · rw [if_pos h1] at h; exact Option.noConfusion h
  · rw [if_neg h1] at h
    by_cases h2 : cfg.migration_threshold ≤ x.2.score - ts
    · rw [if_pos h2] at h
      cases hv : get_vms api x.1 with
      | nil => rw [hv] at h; exact Option.noConfusion h
      | cons v vs =>
        rw [hv] at h
        injection h with h
        exact ⟨v, vs, rfl, h1, h2, h.symm⟩
    · rw [if_neg h2] at h; exact Option.noConfusion h

theorem failover_action_some {cfg : Config} {am : Metrics} {cand : List String}
    {r : Resource} {pair : MigrationRequest × List MigrationRequest}
    (h : failover_action cfg am cand r = some pair) :
    ∃ picked : String × ℚ, best_candidate am cand = some picked ∧ picked.1 ≠ "" ∧
      pair.1.target = picked.1 ∧ pair.1.force = true ∧
      pair.1.vmid = r.vmid ∧ pair.1.source = r.node.getD "" ∧
      pair.2 = if cfg.dry_run then [] else [pair.1] := by
  cases hbc : best_candidate am cand with
  | none =>
    simp only [failover_action, hbc] at h
    exact Option.noConfusion h
  | some picked =>
    simp only [failover_action, hbc] at h
    by_cases hpk : picked.1 = ""
    · rw [if_pos hpk] at h; exact Option.noConfusion h
    · rw [if_neg hpk] at h
      refine ⟨picked, rfl, hpk, ?_⟩
      by_cases hq : r.rtype = some "qemu"
      · rw [if_pos hq] at h
        injection h with h
        rw [← h]
        exact ⟨rfl, rfl, rfl, rfl, rfl⟩
      · rw [if_neg hq] at h
        by_cases hlxc : r.rtype = some "lxc"
        · rw [if_pos hlxc] at h
          injection h with h
          rw [← h]
          exact ⟨rfl, rfl, rfl, rfl, rfl⟩
        · rw [if_neg hlxc] at h
          exact Option.noConfusion h

/-! ### Shapes of the two phases' successful results -/

theorem run_balancing_cycle_empty {cfg : Config} {api : Api}
    (hg : gather_metrics cfg api = .ok []) :
    run_balancing_cycle cfg api = .ok ([], []) := by
  simp [run_balancing_cycle, hg]

theorem run_balancing_cycle_eq {cfg : Config} {api : Api} {metrics : Metrics}
    {tn : String} {tm : NodeMetrics}
    (hg : gather_metrics cfg api = .ok metrics) (hne : metrics ≠ [])
    (hch : choose_target_node metrics = some (tn, tm)) :
    run_balancing_cycle cfg api = .ok
      ((metrics.filterMap (balance_node_action cfg api tn tm.score)).map Prod.fst,
       (metrics.filterMap (balance_node_action cfg api tn tm.score)).flatMap Prod.snd) := by
  simp only [run_balancing_cycle, hg, hch, if_neg hne]

theorem handle_with_all_nodes_early_nil {cfg : Config} {api : Api}
    {all_nodes : List String} {metrics : Metrics}
    (hg : gather_metrics cfg api = .ok metrics)
    (h : nodes_to_process_of cfg all_nodes metrics = [] ∨
         resources_to_migrate_of api (nodes_to_process_of cfg all_nodes metrics) = [] ∨
         candidate_nodes_of cfg metrics = []) :
    handle_with_all_nodes cfg api all_nodes = .ok ([], []) := by
  by_cases h1 : nodes_to_process_of cfg all_nodes metrics = []
  · simp only [handle_with_all_nodes, hg, if_pos h1]
  · by_cases h2 : resources_to_migrate_of api (nodes_to_process_of cfg all_nodes metrics) = []
    · simp only [handle_with_all_nodes, hg, if_neg h1, if_pos h2]
    · have h3 : candidate_nodes_of cfg metrics = [] := by tauto
      simp only [handle_with_all_nodes, hg, if_neg h1, if_neg h2, if_pos h3]

theorem handle_with_all_nodes_eq {cfg : Config} {api : Api}
    {all_nodes : List String} {metrics : Metrics}
    (hg : gather_metrics cfg api = .ok metrics)
    (h1 : nodes_to_process_of cfg all_nodes metrics ≠ [])
    (h2 : resources_to_migrate_of api (nodes_to_process_of cfg all_nodes metrics) ≠ [])
    (h3 : candidate_nodes_of cfg metrics ≠ []) :
    handle_with_all_nodes cfg api all_nodes = .ok
      (((resources_to_migrate_of api (nodes_to_process_of cfg all_nodes metrics)).filterMap
          (failover_action cfg metrics (candidate_nodes_of cfg metrics))).map Prod.fst,
       ((resources_to_migrate_of api (nodes_to_process_of cfg all_nodes metrics)).filterMap
          (failover_action cfg metrics (candidate_nodes_of cfg metrics))).flatMap Prod.snd) := by
  simp only [handle_with_all_nodes, hg, if_neg h1, if_neg h2, if_neg h3]

/-! ### C1: validity of migration targets -/

theorem not_mem_dead_of_mem_alive {x : String} {ns : List String} {metrics : Metrics}
    (h : x ∈ alive_of metrics) : x ∉ dead_of ns metrics := by
  intro hx
  have h2 := (List.mem_filter.mp hx).2
  simp only [decide_eq_true_eq] at h2
  exact h2 h

theorem mem_candidate_nodes {cfg : Config} {metrics : Metrics} {x : String}
    (h : x ∈ candidate_nodes_of cfg metrics) :
    x ∈ alive_of metrics ∧ x ∉ cfg.maintenance_nodes := by
  have h1 := List.mem_filter.mp h
  refine ⟨h1.1, ?_⟩
  have h2 := h1.2
  simp only [decide_eq_true_eq] at h2
  exact h2

/-- C1 (amended): every migration issued in either phase targets a node that
is a key of the current snapshot — and hence is in no dead set computed as
"cluster nodes minus snapshot keys"; in the maintenance/dead-node phase the
target is additionally never in MaintenanceSet; but in the balancing phase
the target may be a MaintenanceSet member (the balancing code does not filter
maintenance nodes out of the snapshot), so the claim's maintenance clause
fails for the balancing phase. -/
theorem migration_targets_valid (cfg : Config) (api : Api) (metrics : Metrics)
    (hg : gather_metrics cfg api = .ok metrics) :
    (∀ reqs calls, run_balancing_cycle cfg api = .ok (reqs, calls) →
       ∀ req ∈ reqs, req.target ∈ alive_of metrics ∧
         ∀ ns, req.target ∉ dead_of ns metrics) ∧
    (∀ reqs calls, handle_maintenance_and_dead_nodes cfg api = .ok (reqs, calls) →
       ∀ req ∈ reqs, req.target ∈ alive_of metrics ∧
         req.target ∉ cfg.maintenance_nodes ∧
         ∀ ns, req.target ∉ dead_of ns metrics) := by
  constructor
  · intro reqs calls hb req hreq
    by_cases hne : metrics = []
    · rw [hne] at hg
      rw [run_balancing_cycle_empty hg] at hb
      injection hb with hb
      injection hb with hb1 hb2
      rw [← hb1] at hreq
      exact absurd hreq (List.not_mem_nil req)
    · obtain ⟨⟨tn, tm⟩, hch⟩ := choose_target_node_isSome hne
      rw [run_balancing_cycle_eq hg hne hch] at hb
      injection hb with hb
      injection hb with hb1 hb2
      rw [← hb1] at hreq
      obtain ⟨pair, hpair, hfst⟩ := List.mem_map.mp hreq
      obtain ⟨x, _, hact⟩ := List.mem_filterMap.mp hpair
      obtain ⟨v, vs, _, _, _, hpeq⟩ := balance_node_action_some hact
      have htarget : req.target = tn := by
        rw [← hfst, hpeq]
        rfl
      have htn : tn ∈ alive_of metrics := by
        have := choose_target_node_mem hch
        exact List.mem_map.mpr ⟨(tn, tm), this, rfl⟩
      rw [htarget]
      exact ⟨htn, fun ns => not_mem_dead_of_mem_alive htn⟩
  · intro reqs calls hb req hreq
    have hb' : handle_with_all_nodes cfg api
        (match api.nodesList with | .ok ns => ns | .error _ => []) = .ok (reqs, calls) := hb
    set allN := (match api.nodesList with | .ok ns => ns | .error _ => []) with hallN
    by_cases h1 : nodes_to_process_of cfg allN metrics = []
    · rw [handle_with_all_nodes_early_nil hg (Or.inl h1)] at hb'
      injection hb' with hb'
      injection hb' with hb1 hb2
      rw [← hb1] at hreq
      exact absurd hreq (List.not_mem_nil req)
    · by_cases h2 : resources_to_migrate_of api (nodes_to_process_of cfg allN metrics) = []
      · rw [handle_with_all_nodes_early_nil hg (Or.inr (Or.inl h2))] at hb'
        injection hb' with hb'
        injection hb' with hb1 hb2
        rw [← hb1] at hreq
        exact absurd hreq (List.not_mem_nil req)
      · by_cases h3 : candidate_nodes_of cfg metrics = []
        · rw [handle_with_all_nodes_early_nil hg (Or.inr (Or.inr h3))] at hb'
          injection hb' with hb'
          injection hb' with hb1 hb2
          rw [← hb1] at hreq
          exact absurd hreq (List.not_mem_nil req)
        · rw [handle_with_all_nodes_eq hg h1 h2 h3] at hb'
          injection hb' with hb'
          injection hb' with hb1 hb2
          rw [← hb1] at hreq
          obtain ⟨pair, hpair, hfst⟩ := List.mem_map.mp hreq
          obtain ⟨r, _, hact⟩ := List.mem_filterMap.mp hpair
          obtain ⟨picked, hbc, _, htgt, _⟩ := failover_action_some hact
          have hmem := best_candidate_mem hbc
          obtain ⟨halive, hmaint⟩ := mem_candidate_nodes hmem
          have htarget : req.target = picked.1 := by rw [← hfst]; exact htgt
          rw [htarget]
          exact ⟨halive, hmaint, fun ns => not_mem_dead_of_mem_alive halive⟩

/-- Concrete configuration refuting C1 as stated: node `m` is in maintenance. -/
def cfgX1 : Config :=
  { nodes := [], maintenance_nodes := ["m"], migration_threshold := 20, dry_run := false }

/-- Concrete API results refuting C1 as stated: maintenance node `m` has the
lowest score, node `b` is overloaded and hosts VM 101. -/
def apiX1 : Api :=
  { nodesList := .ok ["m", "b"],
    nodeStatus := fun n =>
      if n = "m" then .ok { cpu := some (1/20), maxmem := some 100, mem := some 5 }
      else if n = "b" then .ok { cpu := some (1/4), maxmem := some 100, mem := some 25 }
      else .error (),
    nodeVMs := fun n => if n = "b" then .ok [{ vmid := some 101 }] else .ok [],
    nodeCTs := fun _ => .ok [],
    clusterResources := .ok [] }

/-- The snapshot the C1 counterexample's API produces. -/
def metricsX1 : Metrics :=
  [("m", { cpu_percent := 5, mem_percent := 5, score := 10 }),
   ("b", { cpu_percent := 25, mem_percent := 25, score := 50 })]

theorem gatherX1 : gather_metrics cfgX1 apiX1 = .ok metricsX1 := by
  simp [gather_metrics, cfgX1, apiX1, computeNodeMetrics, metricsX1,
    List.filterMap_cons, List.filterMap_nil]
  all_goals norm_num

theorem chooseX1 : choose_target_node metricsX1 =
    some ("m", { cpu_percent := 5, mem_percent := 5, score := 10 }) := by
  norm_num [choose_target_node, metricsX1]

theorem actionX1 : metricsX1.filterMap
    (balance_node_action cfgX1 apiX1 "m"
      ({ cpu_percent := 5, mem_percent := 5, score := 10 : NodeMetrics }).score) =
    [({ kind := .vm, vmid := some 101, source := "b", target := "m",
        online := true, force := false },
      [{ kind := .vm, vmid := some 101, source := "b", target := "m",
         online := true, force := false }])] := by
  simp [metricsX1, balance_node_action, cfgX1, apiX1, get_vms, migrate_vm,
    List.filterMap_cons, List.filterMap_nil]
  all_goals norm_num

/-- C1 (counterexample): the balancing phase issues a migration whose target
node `m` is a member of MaintenanceSet — the claim's "the chosen target node
is not in MaintenanceSet" is false for the balancing phase. -/
theorem balancing_targets_maintenance_node :
    run_balancing_cycle cfgX1 apiX1 = .ok
      ([{ kind := .vm, vmid := some 101, source := "b", target := "m",
          online := true, force := false }],
       [{ kind := .vm, vmid := some 101, source := "b", target := "m",
          online := true, force := false }]) ∧
    "m" ∈ cfgX1.maintenance_nodes := by
  constructor
  · have h := run_balancing_cycle_eq gatherX1 (by simp [metricsX1]) chooseX1
    rw [actionX1] at h
    simpa using h
  · exact List.mem_cons_self "m" []

/-- Concrete configuration for the C1 witness. -/
def cfgW1 : Config :=
  { nodes := [], maintenance_nodes := ["mm"], migration_threshold := 20, dry_run := false }

/-- Concrete API results for the C1 witness: nodes `a`, `b` alive, `d` dead,
a resource on `d` and one on maintenance node `mm`. -/
def apiW1 : Api :=
  { nodesList := .ok ["a", "b", "d"],
    nodeStatus := fun n =>
      if n = "a" then .ok { cpu := some (1/20), maxmem := some 100, mem := some 5 }
      else if n = "b" then .ok { cpu := some (1/10), maxmem := some 100, mem := some 10 }
      else .error (),
    nodeVMs := fun _ => .ok [],
    nodeCTs := fun _ => .ok [],
    clusterResources := .ok
      [{ vmid := some 100, rtype := some "qemu", node := some "d" },
       { vmid := some 101, rtype := some "lxc", node := some "mm" }] }

/-- The snapshot the C1 witness's API produces. -/
def metricsW1 : Metrics :=
  [("a", { cpu_percent := 5, mem_percent := 5, score := 10 }),
   ("b", { cpu_percent := 10, mem_percent := 10, score := 20 })]

/-- The two forced migration requests issued in the C1/C5 witness scenario. -/
def reqsW1 : List MigrationRequest :=
  [{ kind := .vm, vmid := some 100, source := "d", target := "a",
     online := false, force := true },
   { kind := .ct, vmid := some 101, source := "mm", target := "a",
     online := false, force := true }]

theorem gatherW1 : gather_metrics cfgW1 apiW1 = .ok metricsW1 := by
  simp [gather_metrics, cfgW1, apiW1, computeNodeMetrics, metricsW1,
    List.filterMap_cons, List.filterMap_nil]
  all_goals norm_num

theorem bestW1 : best_candidate metricsW1 (candidate_nodes_of cfgW1 metricsW1) =
    some ("a", 10) := by
  have hc : candidate_nodes_of cfgW1 metricsW1 = ["a", "b"] := by decide
  rw [hc]
  simp [best_candidate, bc_step, lookupScore, metricsW1, List.foldl_cons, List.foldl_nil]
  norm_num

theorem handleW1 : handle_maintenance_and_dead_nodes cfgW1 apiW1 = .ok (reqsW1, reqsW1) := by
  have h := @handle_with_all_nodes_eq cfgW1 apiW1
    ["a", "b", "d"] metricsW1 gatherW1 (by decide) (by decide) (by decide)
  have hrtm : resources_to_migrate_of apiW1
      (nodes_to_process_of cfgW1 ["a", "b", "d"] metricsW1) =
      [{ vmid := some 100, rtype := some "qemu", node := some "d" },
       { vmid := some 101, rtype := some "lxc", node := some "mm" }] := by decide
  rw [hrtm] at h
  have heval : List.filterMap
      (failover_action cfgW1 metricsW1 (candidate_nodes_of cfgW1 metricsW1))
      [{ vmid := some 100, rtype := some "qemu", node := some "d" },
       { vmid := some 101, rtype := some "lxc", node := some "mm" }] =
      [(reqsW1.get ⟨0, by simp [reqsW1]⟩, [reqsW1.get ⟨0, by simp [reqsW1]⟩]),
       (reqsW1.get ⟨1, by simp [reqsW1]⟩, [reqsW1.get ⟨1, by simp [reqsW1]⟩])] := by
    simp [failover_action, bestW1, reqsW1, List.filterMap_cons, List.filterMap_nil,
      show cfgW1.dry_run = false from rfl]
  rw [heval] at h
  have hfin : handle_maintenance_and_dead_nodes cfgW1 apiW1 =
      handle_with_all_nodes cfgW1 apiW1 ["a", "b", "d"] := rfl
  rw [hfin, h]
  simp [reqsW1]

/-- Witness for the amended C1 at concrete inputs: the failover migrations
target node `a` — alive, outside MaintenanceSet and in no dead set — and the
balancing migration of the maintenance-targeting run still lands on a
snapshot key that is in no dead set. -/
theorem migration_targets_valid_witness :
    ("a" ∈ alive_of metricsW1 ∧ "a" ∉ cfgW1.maintenance_nodes ∧
      "a" ∉ dead_of ["a", "b", "d"] metricsW1) ∧
    ("m" ∈ alive_of metricsX1 ∧ "m" ∉ dead_of ["m", "b"] metricsX1) := by
  obtain ⟨hbal, hmnt⟩ := migration_targets_valid cfgW1 apiW1 metricsW1 gatherW1
  have hm := hmnt reqsW1 reqsW1 handleW1
    { kind := .vm, vmid := some 100, source := "d", target := "a",
      online := false, force := true }
    (List.mem_cons_self _ _)
  obtain ⟨hbal1, -⟩ := migration_targets_valid cfgX1 apiX1 metricsX1 gatherX1
  have hb1 := hbal1
    [{ kind := .vm, vmid := some 101, source := "b", target := "m",
       online := true, force := false }]
    [{ kind := .vm, vmid := some 101, source := "b", target := "m",
       online := true, force := false }]
    balancing_targets_maintenance_node.1 _ (List.mem_cons_self _ _)
  exact ⟨⟨hm.1, hm.2.1, hm.2.2 ["a", "b", "d"]⟩, ⟨hb1.1, hb1.2 ["m", "b"]⟩⟩

/-! ### C4: per-node behaviour of the balancing loop -/

theorem countP_filterMap_key {α β : Type} (key : α → String) (src : β → String)
    (f : α → Option β) (hf : ∀ a b, f a = some b → src b = key a) :
    ∀ (l : List α), (l.map key).Nodup → ∀ x ∈ l,
      (l.filterMap f).countP (fun b => decide (src b = key x)) =
        if (f x).isSome then 1 else 0 := by
  intro l
  induction l with
  | nil => intro _ x hx; exact absurd hx (List.not_mem_nil x)
  | cons y t ih =>
    intro hnd x hx
    rw [List.map_cons, List.nodup_cons] at hnd
    obtain ⟨hny, hnt⟩ := hnd
    rcases List.mem_cons.mp hx with rfl | hxt
    · have hzero : (t.filterMap f).countP (fun b => decide (src b = key x)) = 0 := by
        rw [List.countP_eq_zero]
        intro b hb
        obtain ⟨a, ha, hfa⟩ := List.mem_filterMap.mp hb
        have hsb : src b = key a := hf a b hfa
        rw [hsb]
        simp only [decide_eq_true_eq]
        intro hEq
        exact hny (hEq ▸ List.mem_map_of_mem key ha)
      cases hfy : f x with
      | none => simp [List.filterMap_cons, hfy, hzero]
      | some b =>
        have hsrc : src b = key x := hf x b hfy
        simp [List.filterMap_cons, hfy, List.countP_cons, hzero, hsrc]
    · have hkey : key y ≠ key x := by
        intro hEq
        exact hny (hEq ▸ List.mem_map_of_mem key hxt)
      cases hfy : f y with
      | none => simpa [List.filterMap_cons, hfy] using ih hnt x hxt
      | some b =>
        have hsrc : src b = key y := hf y b hfy
        have hrec := ih hnt x hxt
        simp [List.filterMap_cons, hfy, List.countP_cons, hsrc, hkey, hrec]

/-- C4: in the balancing phase, for every non-target node of the snapshot:
when its score exceeds the target's by at least the threshold and its VM
listing is non-empty, exactly one migration request originates from it — for
the first VM of the listing, online, unforced, targeted at the globally
selected target node; when the difference is below the threshold, no request
originates from it. -/
theorem balancing_per_node_migration (cfg : Config) (api : Api) (metrics : Metrics)
    (tn : String) (tm : NodeMetrics) (node : String) (data : NodeMetrics)
    (hg : gather_metrics cfg api = .ok metrics)
    (hch : choose_target_node metrics = some (tn, tm))
    (hnd : (metrics.map Prod.fst).Nodup)
    (hmem : (node, data) ∈ metrics) (hne : node ≠ tn) :
    ∃ reqs calls, run_balancing_cycle cfg api = .ok (reqs, calls) ∧
      (∀ v vs, cfg.migration_threshold ≤ data.score - tm.score →
         get_vms api node = v :: vs →
         reqs.countP (fun r => decide (r.source = node)) = 1 ∧
         ({ kind := .vm, vmid := v.vmid, source := node, target := tn,
            online := true, force := false } : MigrationRequest) ∈ reqs) ∧
      (data.score - tm.score < cfg.migration_threshold →
         reqs.countP (fun r => decide (r.source = node)) = 0) := by
  have hnempty : metrics ≠ [] := by
    intro hE
    rw [hE] at hmem
    exact List.not_mem_nil _ hmem
  have hrun := run_balancing_cycle_eq hg hnempty hch
  have hf : ∀ (x : String × NodeMetrics) pr,
      balance_node_action cfg api tn tm.score x = some pr → pr.1.source = x.1 := by
    intro x pr hx
    obtain ⟨v, vs, _, _, _, hpeq⟩ := balance_node_action_some hx
    rw [hpeq]
    rfl
  have hcnt : ∀ p : String × NodeMetrics, p ∈ metrics →
      ((metrics.filterMap (balance_node_action cfg api tn tm.score)).map
        Prod.fst).countP (fun r => decide (r.source = p.1)) =
      if (balance_node_action cfg api tn tm.score p).isSome then 1 else 0 := by
    intro p hp
    rw [List.countP_map]
    exact countP_filterMap_key Prod.fst
      (fun pr : MigrationRequest × List MigrationRequest => pr.1.source) _ hf metrics hnd p hp
  refine ⟨_, _, hrun, ?_, ?_⟩
  · intro v vs hthr hvms
    have hact : balance_node_action cfg api tn tm.score (node, data) =
        some (migrate_vm cfg.dry_run v.vmid node tn false) := by
      simp only [balance_node_action, if_neg hne, if_pos hthr, hvms]
    constructor
    · have := hcnt (node, data) hmem
      rw [hact] at this
      simpa using this
    · refine List.mem_map.mpr ⟨migrate_vm cfg.dry_run v.vmid node tn false, ?_, rfl⟩
      exact List.mem_filterMap.mpr ⟨(node, data), hmem, hact⟩
  · intro hlt
    have hact : balance_node_action cfg api tn tm.score (node, data) = none := by
      simp only [balance_node_action, if_neg hne, if_neg (not_le.mpr hlt)]
    have := hcnt (node, data) hmem
    rw [hact] at this
    simpa using this

/-- Concrete configuration for the C4 witness. -/
def cfgW4 : Config :=
  { nodes := [], maintenance_nodes := [], migration_threshold := 20, dry_run := false }

/-- Concrete API results for the C4 witness: target `a` (score 10),
overloaded `b` (score 50, VM 201), mildly loaded `c` (score 15, VM 301). -/
def apiW4 : Api :=
  { nodesList := .ok ["a", "b", "c"],
    nodeStatus := fun n =>
      if n = "a" then .ok { cpu := some (1/20), maxmem := some 100, mem := some 5 }
      else if n = "b" then .ok { cpu := some (1/4), maxmem := some 100, mem := some 25 }
      else if n = "c" then .ok { cpu := some (1/10), maxmem := some 100, mem := some 5 }
      else .error (),
    nodeVMs := fun n =>
      if n = "b" then .ok [{ vmid := some 201 }]
      else if n = "c" then .ok [{ vmid := some 301 }]
      else .ok [],
    nodeCTs := fun _ => .ok [],
    clusterResources := .ok [] }

/-- The snapshot the C4 witness's API produces. -/
def metricsW4 : Metrics :=
  [("a", { cpu_percent := 5, mem_percent := 5, score := 10 }),
   ("b", { cpu_percent := 25, mem_percent := 25, score := 50 }),
   ("c", { cpu_percent := 10, mem_percent := 5, score := 15 })]

/-- The single balancing request of the C4 witness scenario. -/
def reqsW4 : List MigrationRequest :=
  [{ kind := .vm, vmid := some 201, source := "b", target := "a",
     online := true, force := false }]

theorem gatherW4 : gather_metrics cfgW4 apiW4 = .ok metricsW4 := by
  simp [gather_metrics, cfgW4, apiW4, computeNodeMetrics, metricsW4,
    List.filterMap_cons, List.filterMap_nil]
  all_goals norm_num

theorem chooseW4 : choose_target_node metricsW4 =
    some ("a", { cpu_percent := 5, mem_percent := 5, score := 10 }) := by
  norm_num [choose_target_node, metricsW4]

theorem runW4 : run_balancing_cycle cfgW4 apiW4 = .ok (reqsW4, reqsW4) := by
  have h := run_balancing_cycle_eq gatherW4 (by simp [metricsW4]) chooseW4
  have heval : metricsW4.filterMap
      (balance_node_action cfgW4 apiW4 "a"
        ({ cpu_percent := 5, mem_percent := 5, score := 10 : NodeMetrics }).score) =
      [(reqsW4.get ⟨0, by simp [reqsW4]⟩, [reqsW4.get ⟨0, by simp [reqsW4]⟩])] := by
    simp [metricsW4, balance_node_action, cfgW4, apiW4, get_vms, migrate_vm, reqsW4,
      List.filterMap_cons, List.filterMap_nil]
    all_goals norm_num
  rw [heval] at h
  rw [h]
  simp [reqsW4]

/-- Witness for C4 at a concrete input: exactly one request originates from
the overloaded node `b` (for its first VM, to target `a`), and none from the
below-threshold node `c`. -/
theorem balancing_per_node_migration_witness :
    reqsW4.countP (fun r => decide (r.source = "b")) = 1 ∧
    ({ kind := .vm, vmid := some 201, source := "b", target := "a",
       online := true, force := false } : MigrationRequest) ∈ reqsW4 ∧
    reqsW4.countP (fun r => decide (r.source = "c")) = 0 := by
  obtain ⟨reqs, calls, hrun, hA, -⟩ := balancing_per_node_migration cfgW4 apiW4 metricsW4
    "a" { cpu_percent := 5, mem_percent := 5, score := 10 }
    "b" { cpu_percent := 25, mem_percent := 25, score := 50 }
    gatherW4 chooseW4 (by decide)
    (List.mem_cons_of_mem _ (List.mem_cons_self _ _)) (by decide)
  obtain ⟨reqs2, calls2, hrun2, -, hB2⟩ := balancing_per_node_migration cfgW4 apiW4 metricsW4
    "a" { cpu_percent := 5, mem_percent := 5, score := 10 }
    "c" { cpu_percent := 10, mem_percent := 5, score := 15 }
    gatherW4 chooseW4 (by decide)
    (List.mem_cons_of_mem _ (List.mem_cons_of_mem _ (List.mem_cons_self _ _))) (by decide)
  have hid : reqs = reqsW4 := by
    have h := hrun.symm.trans runW4
    simp only [Except.ok.injEq, Prod.mk.injEq] at h
    exact h.1
  have hid2 : reqs2 = reqsW4 := by
    have h := hrun2.symm.trans runW4
    simp only [Except.ok.injEq, Prod.mk.injEq] at h
    exact h.1
  have h1 := hA { vmid := some 201 } [] (by norm_num [cfgW4]) rfl
  have h0 := hB2 (by norm_num [cfgW4])
  rw [hid] at h1
  rw [hid2] at h0
  exact ⟨h1.1, h1.2, h0⟩

/-! ### Minimality of the handler's candidate scan -/

theorem bc_step_le (m : Metrics) (x : String) (q : String × ℚ) :
    ∀ q', bc_step m (some q) x = some q' → q'.2 ≤ q.2 := by
  intro q' h
  cases hl : lookupScore m x with
  | none =>
    simp only [bc_step, hl] at h
    injection h with h
    rw [← h]
  | some s =>
    simp only [bc_step, hl] at h
    by_cases hc : s < q.2
    · rw [if_pos hc] at h
      injection h with h
      rw [← h]
      exact le_of_lt hc
    · rw [if_neg hc] at h
      injection h with h
      rw [← h]

theorem bc_step_bound (m : Metrics) (acc : Option (String × ℚ)) (x : String) (s : ℚ)
    (hl : lookupScore m x = some s) :
    ∀ q', bc_step m acc x = some q' → q'.2 ≤ s := by
  intro q' h
  cases acc with
  | none =>
    simp only [bc_step, hl] at h
    injection h with h
    rw [← h]
  | some q =>
    simp only [bc_step, hl] at h
    by_cases hc : s < q.2
    · rw [if_pos hc] at h
      injection h with h
      rw [← h]
    · rw [if_neg hc] at h
      injection h with h
      rw [← h]
      exact le_of_not_lt hc

theorem bc_step_isSome_of_lookup (m : Metrics) (acc : Option (String × ℚ)) (x : String)
    (s : ℚ) (hl : lookupScore m x = some s) : ∃ q', bc_step m acc x = some q' := by
  cases acc with
  | none => exact ⟨(x, s), by simp only [bc_step, hl]⟩
  | some q =>
    by_cases hc : s < q.2
    · exact ⟨(x, s), by simp only [bc_step, hl, if_pos hc]⟩
    · exact ⟨q, by simp only [bc_step, hl, if_neg hc]⟩

theorem bc_step_some_of_some (m : Metrics) (x : String) (q : String × ℚ) :
    ∃ q', bc_step m (some q) x = some q' := by
  cases hl : lookupScore m x with
  | none => exact ⟨q, by simp only [bc_step, hl]⟩
  | some s => exact bc_step_isSome_of_lookup m (some q) x s hl

theorem bc_foldl_lookup {m : Metrics} :
    ∀ (l : List String) (acc : Option (String × ℚ)),
      (∀ q, acc = some q → lookupScore m q.1 = some q.2) →
      ∀ p, l.foldl (bc_step m) acc = some p → lookupScore m p.1 = some p.2 := by
  intro l
  induction l with
  | nil => intro acc hacc p h; exact hacc p h
  | cons x xs ih =>
    intro acc hacc p h
    simp only [List.foldl_cons] at h
    refine ih (bc_step m acc x) ?_ p h
    intro q hq
    rcases bc_step_cases m acc x with h2 | ⟨s, hs, h2⟩
    · exact hacc q (h2.symm.trans hq)
    · have hxq : some (x, s) = some q := h2.symm.trans hq
      injection hxq with hxq
      rw [← hxq]
      exact hs

theorem bc_foldl_min {m : Metrics} :
    ∀ (l : List String) (acc : Option (String × ℚ)) (p : String × ℚ),
      l.foldl (bc_step m) acc = some p →
      (∀ q, acc = some q → p.2 ≤ q.2) ∧
      (∀ c ∈ l, ∀ s, lookupScore m c = some s → p.2 ≤ s) := by
  intro l
  induction l with
  | nil =>
    intro acc p h
    constructor
    · intro q hq
      have hpq : some p = some q := h.symm.trans hq
      injection hpq with hpq
      rw [hpq]
    · intro c hc
      exact absurd hc (List.not_mem_nil c)
  | cons x xs ih =>
    intro acc p h
    simp only [List.foldl_cons] at h
    obtain ⟨ih1, ih2⟩ := ih (bc_step m acc x) p h
    constructor
    · intro q hq
      subst hq
      rcases bc_step_cases m (some q) x with h2 | ⟨s, _, h2⟩
      · exact ih1 q h2
      · exact le_trans (ih1 (x, s) h2) (bc_step_le m x q (x, s) h2)
    · intro c hc s hl
      rcases List.mem_cons.mp hc with rfl | hct
      · obtain ⟨q', hq'⟩ := bc_step_isSome_of_lookup m acc c s hl
        exact le_trans (ih1 q' hq') (bc_step_bound m acc c s hl q' hq')
      · exact ih2 c hct s hl

theorem best_candidate_lookup {m : Metrics} {l : List String} {p : String × ℚ}
    (h : best_candidate m l = some p) : lookupScore m p.1 = some p.2 :=
  bc_foldl_lookup l none (fun _ hq => Option.noConfusion hq) p h

theorem best_candidate_min {m : Metrics} {l : List String} {p : String × ℚ}
    (h : best_candidate m l = some p) :
    ∀ c ∈ l, ∀ s, lookupScore m c = some s → p.2 ≤ s :=
  (bc_foldl_min l none p h).2

theorem bc_foldl_isSome {m : Metrics} :
    ∀ (l : List String) (acc : Option (String × ℚ)),
      (∃ c ∈ l, (lookupScore m c).isSome) ∨ (∃ q, acc = some q) →
      ∃ p, l.foldl (bc_step m) acc = some p := by
  intro l
  induction l with
  | nil =>
    intro acc h
    rcases h with ⟨c, hc, _⟩ | ⟨q, hq⟩
    · exact absurd hc (List.not_mem_nil c)
    · exact ⟨q, hq⟩
  | cons x xs ih =>
    intro acc h
    simp only [List.foldl_cons]
    cases hacc : acc with
    | some q =>
      obtain ⟨q', hq'⟩ := bc_step_some_of_some m x q
      exact ih (bc_step m (some q) x) (Or.inr ⟨q', hq'⟩)
    | none =>
      cases hl : lookupScore m x with
      | some s =>
        obtain ⟨q', hq'⟩ := bc_step_isSome_of_lookup m none x s hl
        exact ih (bc_step m none x) (Or.inr ⟨q', hq'⟩)
      | none =>
        have hstep : bc_step m none x = none := by simp only [bc_step, hl]
        rw [hstep]
        refine ih none (Or.inl ?_)
        rcases h with ⟨c, hc, hcs⟩ | ⟨q, hq⟩
        · rcases List.mem_cons.mp hc with rfl | hct
          · rw [hl] at hcs
            exact absurd hcs (by simp)
          · exact ⟨c, hct, hcs⟩
        · rw [hacc] at hq
          exact absurd hq (by simp)

theorem lookupScore_isSome {m : Metrics} {n : String} (h : n ∈ alive_of m) :
    (lookupScore m n).isSome := by
  cases hf : m.find? (fun e => e.1 == n) with
  | some e => simp [lookupScore, hf]
  | none =>
    obtain ⟨e, he, hfst⟩ := List.mem_map.mp h
    have hne := List.find?_eq_none.mp hf e he
    rw [hfst] at hne
    simp at hne

theorem best_candidate_isSome {m : Metrics} {l : List String} (hl : l ≠ [])
    (hall : ∀ c ∈ l, (lookupScore m c).isSome) :
    ∃ p, best_candidate m l = some p := by
  cases l with
  | nil => exact absurd rfl hl
  | cons x xs =>
    refine bc_foldl_isSome (x :: xs) none (Or.inl ⟨x, List.mem_cons_self x xs, ?_⟩)
    exact hall x (List.mem_cons_self x xs)

/-! ### C5: the failover phase force-migrates every affected resource -/

/-- The request the failover loop constructs for a resource bound for
target node `t` (as obtained by inverting the loop body). -/
def failover_request (t : String) (r : Resource) : MigrationRequest :=
  { kind := if r.rtype = some "qemu" then WorkloadKind.vm else .ct,
    vmid := r.vmid, source := r.node.getD "", target := t,
    online := false, force := true }

theorem resources_to_migrate_nil (api : Api) :
    resources_to_migrate_of api [] = [] := by
  unfold resources_to_migrate_of
  rw [List.filter_eq_nil_iff]
  intro r _
  cases hn : r.node <;> simp [hn]

theorem handle_core_spec (cfg : Config) (api : Api) (all_nodes : List String)
    (metrics : Metrics)
    (hg : gather_metrics cfg api = .ok metrics)
    (hemp : "" ∉ alive_of metrics)
    (hcand : candidate_nodes_of cfg metrics ≠ []) :
    ∃ t ts, best_candidate metrics (candidate_nodes_of cfg metrics) = some (t, ts) ∧
      t ∈ candidate_nodes_of cfg metrics ∧
      lookupScore metrics t = some ts ∧
      (∀ c ∈ candidate_nodes_of cfg metrics, ∀ s,
         lookupScore metrics c = some s → ts ≤ s) ∧
      handle_with_all_nodes cfg api all_nodes = .ok
        ((resources_to_migrate_of api (nodes_to_process_of cfg all_nodes metrics)).map
           (failover_request t),
         if cfg.dry_run then []
         else (resources_to_migrate_of api
           (nodes_to_process_of cfg all_nodes metrics)).map (failover_request t)) := by
  have hall : ∀ c ∈ candidate_nodes_of cfg metrics, (lookupScore metrics c).isSome :=
    fun c hc => lookupScore_isSome (mem_candidate_nodes hc).1
  obtain ⟨⟨t, ts⟩, hbc⟩ := best_candidate_isSome hcand hall
  have htmem : t ∈ candidate_nodes_of cfg metrics := best_candidate_mem hbc
  have htlook := best_candidate_lookup hbc
  have htmin := best_candidate_min hbc
  have htne : t ≠ "" := fun hE => hemp (hE ▸ (mem_candidate_nodes htmem).1)
  refine ⟨t, ts, hbc, htmem, htlook, htmin, ?_⟩
  by_cases hrtm : resources_to_migrate_of api (nodes_to_process_of cfg all_nodes metrics) = []
  · rw [handle_with_all_nodes_early_nil hg (Or.inr (Or.inl hrtm)), hrtm]
    simp
  · have hntp : nodes_to_process_of cfg all_nodes metrics ≠ [] := by
      intro hE
      exact hrtm (by rw [hE]; exact resources_to_migrate_nil api)
    rw [handle_with_all_nodes_eq hg hntp hrtm hcand]
    have hact : ∀ r ∈ resources_to_migrate_of api (nodes_to_process_of cfg all_nodes metrics),
        failover_action cfg metrics (candidate_nodes_of cfg metrics) r =
        some (failover_request t r,
              if cfg.dry_run then [] else [failover_request t r]) := by
      intro r hr
      have hpred := (List.mem_filter.mp hr).2
      rw [Bool.and_eq_true] at hpred
      obtain ⟨-, hty⟩ := hpred
      cases hrt : r.rtype with
      | none => rw [hrt] at hty; exact absurd hty (by simp)
      | some ty =>
        rw [hrt] at hty
        simp only [decide_eq_true_eq, List.mem_cons, List.mem_singleton] at hty
        rcases hty with rfl | hty'
        · simp only [failover_action, hbc, if_neg htne, hrt, failover_request]
          simp [hrt]
        · rcases hty' with rfl | hF
          · simp only [failover_action, hbc, if_neg htne, hrt, failover_request]
            simp [hrt]
          · exact absurd hF (List.not_mem_nil ty)
    have hfm := filterMap_eq_map_of hact
    rw [hfm]
    have hfst : ∀ (l : List Resource),
        (l.map fun r => (failover_request t r,
          if cfg.dry_run then [] else [failover_request t r])).map Prod.fst =
        l.map (failover_request t) := by
      intro l
      rw [List.map_map]
      rfl
    have hsnd : ∀ (l : List Resource),
        ((l.map fun r => (failover_request t r,
          if cfg.dry_run then [] else [failover_request t r])).flatMap Prod.snd) =
        if cfg.dry_run then [] else l.map (failover_request t) := by
      intro l
      induction l with
      | nil => simp
      | cons r rs ihr =>
        simp only [List.map_cons, List.flatMap_cons, ihr]
        by_cases hdr : cfg.dry_run
        · simp [hdr]
        · simp [hdr]
    rw [hfst, hsnd]

/-- C5: in the maintenance/dead-node phase (DeadSet = cluster nodes minus
snapshot keys), every VM/Container resource hosted on a maintenance or dead
node is force-migrated, its destination being the candidate node of minimum
score; if no such resources exist the phase is a no-op.  (Stated under the
hypotheses that at least one candidate node exists — the no-candidate case
is C8's error path — and that no node has the empty-string name, which the
loop's falsy test would treat as "no target".) -/
theorem failover_migrates_each_resource (cfg : Config) (api : Api)
    (all_nodes : List String) (metrics : Metrics)
    (hnl : api.nodesList = .ok all_nodes)
    (hg : gather_metrics cfg api = .ok metrics)
    (hemp : "" ∉ alive_of metrics)
    (hcand : candidate_nodes_of cfg metrics ≠ []) :
    (resources_to_migrate_of api (nodes_to_process_of cfg all_nodes metrics) = [] →
       handle_maintenance_and_dead_nodes cfg api = .ok ([], [])) ∧
    ∃ t ts, best_candidate metrics (candidate_nodes_of cfg metrics) = some (t, ts) ∧
      t ∈ candidate_nodes_of cfg metrics ∧
      lookupScore metrics t = some ts ∧
      (∀ c ∈ candidate_nodes_of cfg metrics, ∀ s,
         lookupScore metrics c = some s → ts ≤ s) ∧
      handle_maintenance_and_dead_nodes cfg api = .ok
        ((resources_to_migrate_of api (nodes_to_process_of cfg all_nodes metrics)).map
           (failover_request t),
         if cfg.dry_run then []
         else (resources_to_migrate_of api
           (nodes_to_process_of cfg all_nodes metrics)).map (failover_request t)) ∧
      ∀ req ∈ (resources_to_migrate_of api
          (nodes_to_process_of cfg all_nodes metrics)).map (failover_request t),
        req.force = true ∧ req.target = t := by
  have heq : handle_maintenance_and_dead_nodes cfg api =
      handle_with_all_nodes cfg api all_nodes := by
    unfold handle_maintenance_and_dead_nodes
    rw [hnl]
  constructor
  · intro hrtm
    rw [heq]
    exact handle_with_all_nodes_early_nil hg (Or.inr (Or.inl hrtm))
  · obtain ⟨t, ts, hbc, htmem, htlook, htmin, hhandle⟩ :=
      handle_core_spec cfg api all_nodes metrics hg hemp hcand
    refine ⟨t, ts, hbc, htmem, htlook, htmin, by rw [heq]; exact hhandle, ?_⟩
    intro req hreq
    obtain ⟨r, -, rfl⟩ := List.mem_map.mp hreq
    exact ⟨rfl, rfl⟩

/-- Witness for C5 at a concrete input: nodes `a`, `b` alive, `d` dead, one
VM on `d`, one container on maintenance node `mm`; both resources are
force-migrated to `a`, the alive non-maintenance node of minimal score. -/
theorem failover_migrates_each_resource_witness :
    handle_maintenance_and_dead_nodes cfgW1 apiW1 = .ok (reqsW1, reqsW1) ∧
    "a" ∈ candidate_nodes_of cfgW1 metricsW1 ∧
    lookupScore metricsW1 "a" = some 10 ∧
    (∀ c ∈ candidate_nodes_of cfgW1 metricsW1, ∀ s,
       lookupScore metricsW1 c = some s → (10 : ℚ) ≤ s) ∧
    ∀ req ∈ reqsW1, req.force = true ∧ req.target = "a" := by
  obtain ⟨-, t, ts, hbc, hmem, hlook, hmin, hhandle, hforce⟩ :=
    failover_migrates_each_resource cfgW1 apiW1 ["a", "b", "d"] metricsW1
      rfl gatherW1 (by decide) (by decide)
  have hts : t = "a" ∧ ts = 10 := by
    have h := hbc.symm.trans bestW1
    simp only [Option.some.injEq, Prod.mk.injEq] at h
    exact h
  obtain ⟨ht, hts'⟩ := hts
  subst ht
  subst hts'
  have hmap := hhandle.symm.trans handleW1
  simp only [Except.ok.injEq, Prod.mk.injEq] at hmap
  refine ⟨handleW1, hmem, hlook, hmin, ?_⟩
  intro req hreq
  exact hforce req (by rw [hmap.1]; exact hreq)

/-! ### C8: error paths of the failover phase -/

/-- C8: when the candidate set (snapshot keys minus MaintenanceSet) is empty
the phase aborts (no migrations, error logged) and the cycle still runs the
balancing phase; and the per-resource loop is independent: a resource for
which the target search yields nothing is skipped while every other resource
is still processed by the same rule. -/
theorem failover_error_paths :
    (∀ (cfg : Config) (api : Api) (metrics : Metrics),
       gather_metrics cfg api = .ok metrics →
       candidate_nodes_of cfg metrics = [] →
       handle_maintenance_and_dead_nodes cfg api = .ok ([], []) ∧
       ∀ b, run_balancing_cycle cfg api = .ok b →
         run_cycle cfg api = .ok
           { maintenance_requests := [], maintenance_calls := [],
             balancing_requests := b.1, balancing_calls := b.2 }) ∧
    (∀ (cfg : Config) (am : Metrics) (cand : List String) (l1 l2 : List Resource)
       (r : Resource), failover_action cfg am cand r = none →
       (l1 ++ r :: l2).filterMap (failover_action cfg am cand) =
       (l1 ++ l2).filterMap (failover_action cfg am cand)) := by
  constructor
  · intro cfg api metrics hg hcand
    have hh : handle_maintenance_and_dead_nodes cfg api = .ok ([], []) := by
      unfold handle_maintenance_and_dead_nodes
      exact handle_with_all_nodes_early_nil hg (Or.inr (Or.inr hcand))
    refine ⟨hh, ?_⟩
    intro b hb
    unfold run_cycle
    rw [hh, hb]
  · intro cfg am cand l1 l2 r hr
    simp [List.filterMap_append, List.filterMap_cons, hr]

/-- Concrete configuration for the C8 witness: every alive node is in
maintenance, so no candidate target exists. -/
def cfgW8 : Config :=
  { nodes := [], maintenance_nodes := ["a", "b"], migration_threshold := 20,
    dry_run := false }

/-- Concrete API results for the C8 witness. -/
def apiW8 : Api :=
  { nodesList := .ok ["a", "b"],
    nodeStatus := fun n =>
      if n = "a" then .ok { cpu := some (1/20), maxmem := some 100, mem := some 5 }
      else if n = "b" then .ok { cpu := some (1/4), maxmem := some 100, mem := some 25 }
      else .error (),
    nodeVMs := fun _ => .ok [],
    nodeCTs := fun _ => .ok [],
    clusterResources := .ok [{ vmid := some 7, rtype := some "qemu", node := some "a" }] }

/-- The snapshot the C8 witness's API produces. -/
def metricsW8 : Metrics :=
  [("a", { cpu_percent := 5, mem_percent := 5, score := 10 }),
   ("b", { cpu_percent := 25, mem_percent := 25, score := 50 })]

theorem gatherW8 : gather_metrics cfgW8 apiW8 = .ok metricsW8 := by
  simp [gather_metrics, cfgW8, apiW8, computeNodeMetrics, metricsW8,
    List.filterMap_cons, List.filterMap_nil]
  all_goals norm_num

theorem runW8 : run_balancing_cycle cfgW8 apiW8 = .ok ([], []) := by
  have h := run_balancing_cycle_eq gatherW8 (by simp [metricsW8])
    (show choose_target_node metricsW8 =
      some ("a", { cpu_percent := 5, mem_percent := 5, score := 10 }) by
        norm_num [choose_target_node, metricsW8])
  have heval : metricsW8.filterMap
      (balance_node_action cfgW8 apiW8 "a"
        ({ cpu_percent := 5, mem_percent := 5, score := 10 : NodeMetrics }).score) = [] := by
    simp [metricsW8, balance_node_action, cfgW8, apiW8, get_vms,
      List.filterMap_cons, List.filterMap_nil]
  rw [heval] at h
  simpa using h

/-- A snapshot holding one node named by the empty string, used to realise
the "no target found for a specific resource" skip in the C8 witness. -/
def amW8 : Metrics := [("", { cpu_percent := 0, mem_percent := 0, score := 0 })]

/-- Resources for the per-resource-skip half of the C8 witness. -/
def rA8 : Resource := { vmid := some 1, rtype := some "qemu", node := some "x" }

/-- Second resource (the one skipped) for the C8 witness. -/
def rB8 : Resource := { vmid := some 2, rtype := some "lxc", node := some "y" }

/-- Third resource for the C8 witness. -/
def rC8 : Resource := { vmid := some 3, rtype := some "qemu", node := some "z" }

/-- Witness for C8 at concrete inputs: with both alive nodes in maintenance
the phase issues nothing and the balancing phase still runs; and skipping a
no-target resource leaves the processing of the surrounding resources
unchanged. -/
theorem failover_error_paths_witness :
    handle_maintenance_and_dead_nodes cfgW8 apiW8 = .ok ([], []) ∧
    run_cycle cfgW8 apiW8 = .ok
      { maintenance_requests := [], maintenance_calls := [],
        balancing_requests := [], balancing_calls := [] } ∧
    ([rA8] ++ rB8 :: [rC8]).filterMap (failover_action cfgW8 amW8 [""]) =
      ([rA8] ++ [rC8]).filterMap (failover_action cfgW8 amW8 [""]) := by
  obtain ⟨hh, himpl⟩ := failover_error_paths.1 cfgW8 apiW8 metricsW8 gatherW8 (by decide)
  have hskip := failover_error_paths.2 cfgW8 amW8 [""] [rA8] [rC8] rB8 (by decide)
  exact ⟨hh, himpl ([], []) runW8, hskip⟩

/-! ### C10: node-list failure inside the failover phase -/

/-- C10 (amended): if the cluster node-list fetch fails inside the
maintenance/dead-node phase, the failure is absorbed and the phase proceeds
with `all_nodes = []`, so the dead set is empty and only the configured
maintenance nodes are processed; the phase completes without error provided
the configured monitored node list is non-empty — with an empty monitored
list, the metrics collection inside the phase raises `SystemExit(1)` and the
phase (and process) aborts, so the claim needs that proviso. -/
theorem failover_with_failed_nodelist (cfg : Config) (api : Api)
    (he : api.nodesList = .error ()) :
    handle_maintenance_and_dead_nodes cfg api = handle_with_all_nodes cfg api [] ∧
    (∀ metrics : Metrics, dead_of [] metrics = [] ∧
       nodes_to_process_of cfg [] metrics = cfg.maintenance_nodes) ∧
    (cfg.nodes ≠ [] → ∃ r, handle_maintenance_and_dead_nodes cfg api = .ok r) := by
  have h1 : handle_maintenance_and_dead_nodes cfg api = handle_with_all_nodes cfg api [] := by
    unfold handle_maintenance_and_dead_nodes
    rw [he]
  refine ⟨h1, ?_, ?_⟩
  · intro metrics
    exact ⟨rfl, by simp [nodes_to_process_of, dead_of]⟩
  · intro hn
    obtain ⟨m, hm⟩ := gather_metrics_ok_of (fun hE => absurd hE hn)
    obtain ⟨r, hr⟩ := @handle_with_all_nodes_ok cfg api [] m hm
    rw [h1]
    exact ⟨r, hr⟩

/-- Concrete configuration refuting C10 as stated: empty monitored list. -/
def cfgX10 : Config :=
  { nodes := [], maintenance_nodes := ["mm"], migration_threshold := 20, dry_run := false }

/-- Concrete API results refuting C10 as stated: the node-list fetch fails. -/
def apiX10 : Api :=
  { nodesList := .error (),
    nodeStatus := fun _ => .ok { cpu := some 0, maxmem := some 1, mem := some 0 },
    nodeVMs := fun _ => .ok [], nodeCTs := fun _ => .ok [],
    clusterResources := .ok [] }

/-- C10 (counterexample): with an empty monitored node list, a node-list
fetch failure does abort the maintenance/dead-node phase — metrics
collection raises `SystemExit(1)` — contradicting "that phase does not
abort". -/
theorem nodelist_failure_in_failover_exits :
    handle_maintenance_and_dead_nodes cfgX10 apiX10 = .error (.systemExit 1) := rfl

/-- Concrete configuration for the C10 witness: monitored list configured. -/
def cfgW10 : Config :=
  { nodes := ["w"], maintenance_nodes := ["w"], migration_threshold := 20,
    dry_run := false }

/-- Concrete API results for the C10 witness: node list fails, the monitored
node's status also fails (so the snapshot is empty but collection survives). -/
def apiW10 : Api :=
  { nodesList := .error (),
    nodeStatus := fun _ => .error (),
    nodeVMs := fun _ => .ok [], nodeCTs := fun _ => .ok [],
    clusterResources := .ok [] }

/-- Witness for the amended C10 at a concrete input. -/
theorem failover_with_failed_nodelist_witness :
    handle_maintenance_and_dead_nodes cfgW10 apiW10 = handle_with_all_nodes cfgW10 apiW10 [] ∧
    nodes_to_process_of cfgW10 [] [] = cfgW10.maintenance_nodes ∧
    handle_maintenance_and_dead_nodes cfgW10 apiW10 = .ok ([], []) := by
  obtain ⟨h1, h2, h3⟩ := failover_with_failed_nodelist cfgW10 apiW10 rfl
  obtain ⟨r, hr⟩ := h3 (by decide)
  have hv : handle_maintenance_and_dead_nodes cfgW10 apiW10 = .ok ([], []) := rfl
  exact ⟨h1, (h2 []).2, hv⟩

/-! ### C9: the dry-run flag suppresses API calls but not decisions -/

theorem run_balancing_ok_cases (cfg : Config) (api : Api) (metrics : Metrics)
    (r : List MigrationRequest × List MigrationRequest)
    (hg : gather_metrics cfg api = .ok metrics)
    (hb : run_balancing_cycle cfg api = .ok r) :
    r = ([], []) ∨
    ∃ tn tm pairs, choose_target_node metrics = some (tn, tm) ∧
      pairs = metrics.filterMap (balance_node_action cfg api tn tm.score) ∧
      r = (pairs.map Prod.fst, pairs.flatMap Prod.snd) := by
  by_cases hne : metrics = []
  · rw [hne] at hg
    have h := (run_balancing_cycle_empty hg).symm.trans hb
    injection h with h
    exact Or.inl h.symm
  · obtain ⟨⟨tn, tm⟩, hch⟩ := choose_target_node_isSome hne
    have h := (run_balancing_cycle_eq hg hne hch).symm.trans hb
    injection h with h
    exact Or.inr ⟨tn, tm, _, hch, rfl, h.symm⟩

theorem handle_maintenance_ok_cases (cfg : Config) (api : Api) (metrics : Metrics)
    (r : List MigrationRequest × List MigrationRequest)
    (hg : gather_metrics cfg api = .ok metrics)
    (hb : handle_maintenance_and_dead_nodes cfg api = .ok r) :
    r = ([], []) ∨
    ∃ pairs, pairs = (resources_to_migrate_of api
        (nodes_to_process_of cfg
          (match api.nodesList with | .ok ns => ns | .error _ => []) metrics)).filterMap
        (failover_action cfg metrics (candidate_nodes_of cfg metrics)) ∧
      r = (pairs.map Prod.fst, pairs.flatMap Prod.snd) := by
  have hb' : handle_with_all_nodes cfg api
      (match api.nodesList with | .ok ns => ns | .error _ => []) = .ok r := hb
  set allN := (match api.nodesList with | .ok ns => ns | .error _ => []) with hallN
  by_cases h1 : nodes_to_process_of cfg allN metrics = []
  · have h := (handle_with_all_nodes_early_nil hg (Or.inl h1)).symm.trans hb'
    injection h with h
    exact Or.inl h.symm
  · by_cases h2 : resources_to_migrate_of api (nodes_to_process_of cfg allN metrics) = []
    · have h := (handle_with_all_nodes_early_nil hg (Or.inr (Or.inl h2))).symm.trans hb'
      injection h with h
      exact Or.inl h.symm
    · by_cases h3 : candidate_nodes_of cfg metrics = []
      · have h := (handle_with_all_nodes_early_nil hg (Or.inr (Or.inr h3))).symm.trans hb'
        injection h with h
        exact Or.inl h.symm
      · have h := (handle_with_all_nodes_eq hg h1 h2 h3).symm.trans hb'
        injection h with h
        exact Or.inr ⟨_, rfl, h.symm⟩

theorem balance_node_action_fst_dry (cfg : Config) (api : Api) (tn : String) (ts : ℚ)
    (x : String × NodeMetrics) (b1 b2 : Bool) :
    (balance_node_action { cfg with dry_run := b1 } api tn ts x).map Prod.fst =
    (balance_node_action { cfg with dry_run := b2 } api tn ts x).map Prod.fst := by
  simp only [balance_node_action]
  by_cases h1 : x.1 = tn
  · rw [if_pos h1, if_pos h1]
  · rw [if_neg h1, if_neg h1]
    by_cases h2 : ({ cfg with dry_run := b1 } : Config).migration_threshold ≤ x.2.score - ts
    · have h2' : ({ cfg with dry_run := b2 } : Config).migration_threshold ≤ x.2.score - ts := h2
      rw [if_pos h2, if_pos h2']
      cases get_vms api x.1 with
      | nil => rfl
      | cons v vs => simp [migrate_vm]
    · have h2' : ¬ ({ cfg with dry_run := b2 } : Config).migration_threshold ≤ x.2.score - ts := h2
      rw [if_neg h2, if_neg h2']

theorem failover_action_fst_dry (cfg : Config) (am : Metrics) (cand : List String)
    (r : Resource) (b1 b2 : Bool) :
    (failover_action { cfg with dry_run := b1 } am cand r).map Prod.fst =
    (failover_action { cfg with dry_run := b2 } am cand r).map Prod.fst := by
  cases hbc : best_candidate am cand with
  | none => simp only [failover_action, hbc]
  | some picked =>
    simp only [failover_action, hbc]
    by_cases hpk : picked.1 = ""
    · rw [if_pos hpk, if_pos hpk]
    · rw [if_neg hpk, if_neg hpk]
      by_cases hq : r.rtype = some "qemu"
      · rw [if_pos hq, if_pos hq]
        rfl
      · rw [if_neg hq, if_neg hq]
        by_cases hl : r.rtype = some "lxc"
        · rw [if_pos hl, if_pos hl]
          rfl
        · rw [if_neg hl, if_neg hl]

/-- C9: under dry-run no migrate call reaches the API client in either
phase, while the decision logic — metrics collection, target selection,
threshold comparison, resource filtering — produces exactly the same
migration decisions as without dry-run. -/
theorem dry_run_frame (cfg : Config) (api : Api) :
    (∀ r, run_balancing_cycle { cfg with dry_run := true } api = .ok r → r.2 = []) ∧
    (∀ r, handle_maintenance_and_dead_nodes { cfg with dry_run := true } api = .ok r →
       r.2 = []) ∧
    gather_metrics { cfg with dry_run := true } api =
      gather_metrics { cfg with dry_run := false } api ∧
    Except.map Prod.fst (run_balancing_cycle { cfg with dry_run := true } api) =
      Except.map Prod.fst (run_balancing_cycle { cfg with dry_run := false } api) ∧
    Except.map Prod.fst (handle_maintenance_and_dead_nodes { cfg with dry_run := true } api) =
      Except.map Prod.fst (handle_maintenance_and_dead_nodes { cfg with dry_run := false } api) := by
  have hgEq : gather_metrics { cfg with dry_run := true } api =
      gather_metrics { cfg with dry_run := false } api := rfl
  refine ⟨?_, ?_, hgEq, ?_, ?_⟩
  · intro r hb
    cases hg : gather_metrics { cfg with dry_run := true } api with
    | error e =>
      rw [run_balancing_cycle_error_of hg] at hb
      exact Except.noConfusion hb
    | ok metrics =>
      rcases run_balancing_ok_cases _ _ _ _ hg hb with rfl | ⟨tn, tm, pairs, hch, hpairs, rfl⟩
      · rfl
      · apply flatMap_eq_nil_of_forall
        intro pr hpr
        rw [hpairs] at hpr
        obtain ⟨x, _, hact⟩ := List.mem_filterMap.mp hpr
        obtain ⟨v, vs, _, _, _, hpeq⟩ := balance_node_action_some hact
        rw [hpeq]
        rfl
  · intro r hb
    cases hg : gather_metrics { cfg with dry_run := true } api with
    | error e =>
      rw [handle_maintenance_error_of hg] at hb
      exact Except.noConfusion hb
    | ok metrics =>
      rcases handle_maintenance_ok_cases _ _ _ _ hg hb with rfl | ⟨pairs, hpairs, rfl⟩
      · rfl
      · apply flatMap_eq_nil_of_forall
        intro pr hpr
        rw [hpairs] at hpr
        obtain ⟨x, _, hact⟩ := List.mem_filterMap.mp hpr
        obtain ⟨picked, _, _, _, _, _, _, hp2⟩ := failover_action_some hact
        rw [hp2]
        rfl
  · cases hg : gather_metrics { cfg with dry_run := true } api with
    | error e =>
      rw [run_balancing_cycle_error_of hg, run_balancing_cycle_error_of (hgEq ▸ hg)]
    | ok metrics =>
      by_cases hne : metrics = []
      · subst hne
        rw [run_balancing_cycle_empty hg, run_balancing_cycle_empty (hgEq ▸ hg)]
      · obtain ⟨⟨tn, tm⟩, hch⟩ := choose_target_node_isSome hne
        rw [run_balancing_cycle_eq hg hne hch,
          run_balancing_cycle_eq (hgEq ▸ hg) hne hch]
        simp only [Except.map, List.map_filterMap]
        congr 1
        apply filterMap_ext
        intro x _
        exact balance_node_action_fst_dry cfg api tn tm.score x true false
  · cases hg : gather_metrics { cfg with dry_run := true } api with
    | error e =>
      rw [handle_maintenance_error_of hg, handle_maintenance_error_of (hgEq ▸ hg)]
    | ok metrics =>
      have hT : handle_maintenance_and_dead_nodes { cfg with dry_run := true } api =
          handle_with_all_nodes { cfg with dry_run := true } api
            (match api.nodesList with | .ok ns => ns | .error _ => []) := rfl
      have hF : handle_maintenance_and_dead_nodes { cfg with dry_run := false } api =
          handle_with_all_nodes { cfg with dry_run := false } api
            (match api.nodesList with | .ok ns => ns | .error _ => []) := rfl
      rw [hT, hF]
      set allN := (match api.nodesList with | .ok ns => ns | .error _ => []) with hallN
      have hntpEq : nodes_to_process_of { cfg with dry_run := true } allN metrics =
          nodes_to_process_of { cfg with dry_run := false } allN metrics := rfl
      have hcandEq : candidate_nodes_of { cfg with dry_run := true } metrics =
          candidate_nodes_of { cfg with dry_run := false } metrics := rfl
      by_cases h1 : nodes_to_process_of { cfg with dry_run := true } allN metrics = []
      · rw [handle_with_all_nodes_early_nil hg (Or.inl h1),
          handle_with_all_nodes_early_nil (hgEq ▸ hg) (Or.inl (hntpEq ▸ h1))]
      · by_cases h2 : resources_to_migrate_of api
            (nodes_to_process_of { cfg with dry_run := true } allN metrics) = []
        · rw [handle_with_all_nodes_early_nil hg (Or.inr (Or.inl h2)),
            handle_with_all_nodes_early_nil (hgEq ▸ hg) (Or.inr (Or.inl (hntpEq ▸ h2)))]
        · by_cases h3 : candidate_nodes_of { cfg with dry_run := true } metrics = []
          · rw [handle_with_all_nodes_early_nil hg (Or.inr (Or.inr h3)),
              handle_with_all_nodes_early_nil (hgEq ▸ hg) (Or.inr (Or.inr (hcandEq ▸ h3)))]
          · rw [handle_with_all_nodes_eq hg h1 h2 h3,
              handle_with_all_nodes_eq (hgEq ▸ hg) (hntpEq ▸ h1) (hntpEq ▸ h2) (hcandEq ▸ h3)]
            simp only [Except.map, List.map_filterMap]
            rw [← hntpEq, ← hcandEq]
            congr 1
            apply filterMap_ext
            intro x _
            exact failover_action_fst_dry cfg metrics
              (candidate_nodes_of { cfg with dry_run := true } metrics) x true false

/-- Concrete dry-run configuration for the C9 witness: the C1
counterexample's configuration with the dry-run flag set. -/
def cfgW9 : Config := { cfgX1 with dry_run := true }

/-- Witness for C9 at a concrete input: the dry-run balancing phase decides
the same (maintenance-bound) migration as the live run — visible in the
first components — while issuing no API call. -/
theorem dry_run_frame_witness :
    (∀ r, run_balancing_cycle cfgW9 apiX1 = .ok r → r.2 = []) ∧
    Except.map Prod.fst (run_balancing_cycle cfgW9 apiX1) =
      Except.map Prod.fst (run_balancing_cycle cfgX1 apiX1) ∧
    (∀ r, handle_maintenance_and_dead_nodes cfgW9 apiX1 = .ok r → r.2 = []) := by
  obtain ⟨hb, hm, -, hfst, -⟩ := dry_run_frame cfgX1 apiX1
  exact ⟨hb, hfst, hm⟩

end ProxLB
